import Mathlib

/-
A shallow embedding of the script-mode language-intelligence core of the
vuter repository (server/src/modes/script/javascript.ts and
server/src/modes/script/componentInfo.ts), together with theorems that
check the natural-language specification's claims against it.

Modelling conventions:
- Machine strings, offsets and positions are Lean `String`/`Nat` values.
- JavaScript `undefined`/`null` results are `Option`; a JavaScript record
  field that the TypeScript API declares optional is an `Option` field.
- The external TypeScript language service, the type checker and the
  program are structures of functions, so every theorem quantifies over
  all possible behaviours of the external service.
- JavaScript objects used as string-keyed maps (`existing`, the edit map)
  are association/`List` values; `Set` membership is list membership.
-/

/-! ## Basic LSP data model (vscode-languageserver-types, external to src/) -/

/-- An LSP position (field names `line`/`character` as in the library). -/
structure Pos where
  line : Nat
  character : Nat
deriving DecidableEq

/-- An LSP range.  The library's second field is named `end`, which is a
Lean keyword; it is rendered `endPos` here. -/
structure LspRange where
  start : Pos
  endPos : Pos
deriving DecidableEq

/-- Embeds `Range.create(l1, c1, l2, c2)`. -/
def LspRange.create (l1 c1 l2 c2 : Nat) : LspRange :=
  ⟨⟨l1, c1⟩, ⟨l2, c2⟩⟩

/-- An LSP location. -/
structure Location where
  uri : String
  range : LspRange
deriving DecidableEq

/-- An LSP text edit. -/
structure TextEdit where
  range : LspRange
  newText : String
deriving DecidableEq

/-- Embeds `TextEdit.replace(range, newText)`. -/
def TextEdit.replace (range : LspRange) (newText : String) : TextEdit :=
  ⟨range, newText⟩

/-- A TypeScript text span `{ start, length }`. -/
structure TextSpan where
  start : Nat
  length : Nat
deriving DecidableEq

/-- A TypeScript `{ pos, end }` text range; `end` is a Lean keyword and is
rendered `endPos`. -/
structure TextRangeTs where
  pos : Nat
  endPos : Nat
deriving DecidableEq

/-- Diagnostic severity (vscode-languageserver-types). -/
inductive DiagnosticSeverity where
  | error
  | warning
  | information
  | hint
deriving DecidableEq

/-- Diagnostic tags; only `Unnecessary` is used by the source. -/
inductive DiagnosticTag where
  | unnecessary
deriving DecidableEq

/-- An LSP diagnostic as built by `doValidation`. -/
structure Diagnostic where
  range : LspRange
  severity : DiagnosticSeverity
  message : String
  tags : List DiagnosticTag
  code : Int
  source : String
deriving DecidableEq

/-- A marked string for hover contents: either a plain string or a
`{ language, value }` code block. -/
inductive MarkedString where
  | plain (s : String)
  | code (language value : String)
deriving DecidableEq

/-- An LSP hover result. -/
structure Hover where
  contents : List MarkedString
  range : Option LspRange
deriving DecidableEq

/-- LSP parameter information. -/
structure ParameterInformation where
  label : String
  documentation : String
deriving DecidableEq

/-- LSP signature information. -/
structure SignatureInformation where
  label : String
  documentation : Option String
  parameters : List ParameterInformation
deriving DecidableEq

/-- LSP signature help. -/
structure SignatureHelp where
  activeSignature : Nat
  activeParameter : Nat
  signatures : List SignatureInformation
deriving DecidableEq

/-- Modelled from the spec: the defined empty-signature sentinel
`NULL_SIGNATURE` exported by `modes/nullMode` (not under src/): the spec
says "no items ⇒ a defined empty-signature sentinel, never a
null/undefined leak". -/
def NULL_SIGNATURE : SignatureHelp := ⟨0, 0, []⟩

/-- LSP document highlight kinds used by the source. -/
inductive DocumentHighlightKind where
  | text
  | write
deriving DecidableEq

/-- An LSP document highlight. -/
structure DocumentHighlight where
  range : LspRange
  kind : DocumentHighlightKind
deriving DecidableEq

/-- An LSP symbol information entry.  The symbol kind is represented by
the service's kind tag (see `toSymbolKind`). -/
structure SymbolInformation where
  name : String
  kind : String
  location : Location
  containerName : Option String
deriving DecidableEq

/-- Modelled from the spec: `toSymbolKind` from
services/typescriptService/util (not under src/) converts the service's
navigation-item kind tag to an LSP symbol kind; the spec does not
describe the conversion, so the tag is kept unchanged. -/
def toSymbolKind (kind : String) : String := kind

/-- Modelled from the spec: `toCompletionItemKind` from
services/typescriptService/util (not under src/); the spec does not
describe the conversion, so the entry's kind tag is kept unchanged, and
the LSP `CompletionItemKind` constants compared against below are
represented by the service kind tags that map to them. -/
def toCompletionItemKind (kind : String) : String := kind

/-- The `CompletionItemKind.Function` constant under the tag encoding. -/
def completionItemKindFunction : String := "function"

/-- The `CompletionItemKind.Method` constant under the tag encoding. -/
def completionItemKindMethod : String := "method"

/-- The `CompletionItemKind.File` constant under the tag encoding. -/
def completionItemKindFile : String := "script"

/-- The `CompletionItemKind.Folder` constant under the tag encoding. -/
def completionItemKindFolder : String := "directory"

/-- LSP insert-text formats; the source only ever sets `Snippet`
(leaving the format `undefined` otherwise). -/
inductive InsertTextFormat where
  | snippet
deriving DecidableEq

/-- LSP markup content. -/
structure MarkupContent where
  kind : String
  value : String
deriving DecidableEq

/-- The `data` bundle attached to completion items for later resolution
(see `doComplete` / `doResolve`). -/
structure ResolveData where
  languageId : String
  uri : String
  offset : Nat
  source : Option String
deriving DecidableEq

/-- An LSP completion item with exactly the fields the source reads or
writes. -/
structure CompletionItem where
  uri : String
  position : Pos
  preselect : Option Bool
  label : String
  detail : Option String
  filterText : Option String
  insertTextFormat : Option InsertTextFormat
  sortText : Option String
  kind : Option String
  textEdit : Option TextEdit
  insertText : Option String
  data : Option ResolveData
  documentation : Option MarkupContent
  additionalTextEdits : Option (List TextEdit)
deriving DecidableEq

/-- An LSP completion list. -/
structure CompletionList where
  isIncomplete : Bool
  items : List CompletionItem
deriving DecidableEq

/-! ## Text documents

`TextDocument` comes from vscode-languageserver-types (external).  A
document is its URI, language id, text, and its two coordinate
conversions; the conversions are carried as function fields so that
host documents remain fully abstract, while documents created from a
file's full text (`TextDocument.create`) get the concrete newline-aware
conversions below. -/

/-- A text document. -/
structure TextDoc where
  uri : String
  languageId : String
  text : String
  offsetAt : Pos → Nat
  positionAt : Nat → Pos

/-- Concrete newline-aware `positionAt` for a document created from full
text: the position of `offset` (clamped to the text length). -/
def positionAtText (text : String) (offset : Nat) : Pos :=
  let pre := text.toList.take (min offset text.toList.length)
  ⟨pre.count '\n', (pre.reverse.takeWhile (fun c => c ≠ '\n')).length⟩

/-- Concrete newline-aware `offsetAt` for a document created from full
text (clamping as the library does). -/
def offsetAtText (text : String) (p : Pos) : Nat :=
  let ls := text.splitOn "\n"
  if p.line ≥ ls.length then text.toList.length
  else ((ls.take p.line).map (fun l => l.toList.length + 1)).sum
    + min p.character (ls.getD p.line "").toList.length

/-- Embeds `TextDocument.create(uri, languageId, version, content)`; the version
is not consulted by the embedded code. -/
def TextDocument.create (uri : String) (languageId : String) (content : String) : TextDoc :=
  ⟨uri, languageId, content, offsetAtText content, positionAtText content⟩

/-- Embeds `convertRange(document, span)` from javascript.ts. -/
def convertRange (document : TextDoc) (span : TextSpan) : LspRange :=
  ⟨document.positionAt span.start, document.positionAt (span.start + span.length)⟩

/-! ## TypeScript AST model

Only the syntax kinds and node fields inspected by componentInfo.ts are
modelled.  A node carries its kind, its `.text` property (meaningful for
string literals and identifiers), its `getText()` source text, its
`getChildren()` list, its `.expression` (the callee for call
expressions, the inner expression for decorators), its `.arguments`,
its `.elements` (array literals) and its optional `.decorators`. -/

/-- The TypeScript syntax kinds the source dispatches on, plus a
catch-all for every other kind. -/
inductive SyntaxKind where
  | ExportAssignment
  | ClassDeclaration
  | CallExpression
  | ObjectLiteralExpression
  | ArrayLiteralExpression
  | StringLiteral
  | PropertyDeclaration
  | GetAccessor
  | SetAccessor
  | MethodDeclaration
  | PropertyAssignment
  | Identifier
  | OtherKind
deriving DecidableEq

/-- A TypeScript syntax node (see the section comment for the fields). -/
inductive TsNode where
  | node (kind : SyntaxKind) (text : String) (srcText : String)
      (children : List TsNode) (expression : Option TsNode)
      (arguments : List TsNode) (elements : List TsNode)
      (decorators : Option (List TsNode))

/-- The node's syntax kind. -/
def TsNode.kind : TsNode → SyntaxKind
  | .node k _ _ _ _ _ _ _ => k

/-- The node's `.text` property (string literals, identifiers). -/
def TsNode.text : TsNode → String
  | .node _ t _ _ _ _ _ _ => t

/-- The node's `getText()` source text. -/
def TsNode.srcText : TsNode → String
  | .node _ _ s _ _ _ _ _ => s

/-- The node's `getChildren()`. -/
def TsNode.children : TsNode → List TsNode
  | .node _ _ _ c _ _ _ _ => c

/-- The node's `.expression` (callee for calls, inner expression for
export assignments and decorators); `none` on nodes without one. -/
def TsNode.expression : TsNode → Option TsNode
  | .node _ _ _ _ e _ _ _ => e

/-- The node's `.arguments` (call expressions). -/
def TsNode.arguments : TsNode → List TsNode
  | .node _ _ _ _ _ a _ _ => a

/-- The node's `.elements` (array literals). -/
def TsNode.elements : TsNode → List TsNode
  | .node _ _ _ _ _ _ e _ => e

/-- The node's optional `.decorators`. -/
def TsNode.decorators : TsNode → Option (List TsNode)
  | .node _ _ _ _ _ _ _ d => d

/-- Embeds `ts.isCallExpression`. -/
def isCallExpression (n : TsNode) : Bool :=
  n.kind = SyntaxKind.CallExpression

/-- A TypeScript symbol; `documentationComment` stores the text of the
parts returned by `getDocumentationComment(checker)`.  In the TypeScript
version the source builds against, `valueDeclaration` may be absent at
runtime, so it is optional here. -/
structure TsSymbol where
  name : String
  valueDeclaration : Option TsNode
  declarations : List TsNode
  documentationComment : List String

/-- The kind of a symbol's value declaration; an absent declaration
never matches any specific kind (the source reads
`valueDeclaration.kind` assuming presence). -/
def declOptKind (d : Option TsNode) : SyntaxKind :=
  match d with
  | some n => n.kind
  | none => SyntaxKind.OtherKind

/-- A call signature of a type; kept opaque, the checker resolves its
return type. -/
structure TsSignature where
  sid : Nat

/-- A resolved TypeScript type: its properties, whether it is a class
type (`isClass()` / the `ObjectFlags.Class` test of `isClassType`), its
symbol and its call signatures. -/
structure TsType where
  properties : List TsSymbol
  isClassFlag : Bool
  symbol : Option TsSymbol
  callSignatures : List TsSignature

/-- The type checker, as the structure of the query functions the source
calls on it. -/
structure TsChecker where
  getTypeAtLocation : TsNode → TsType
  getPropertyOfType : TsType → String → Option TsSymbol
  getTypeOfSymbolAtLocation : TsSymbol → TsNode → TsType
  getPropertiesOfType : TsType → List TsSymbol
  getReturnTypeOfSignature : TsSignature → TsType

/-- A source file: its top-level statements (componentInfo.ts) and its
full text (`getFullText()`, used by `getSourceDoc`). -/
structure TsSourceFile where
  statements : List TsNode
  fullText : String

/-- The program exposed by the service. -/
structure TsProgram where
  getRootFileNames : List String
  getSourceFile : String → Option TsSourceFile
  getTypeChecker : TsChecker

/-! ## componentInfo.ts -/

/-- A prop entry (`PropInfo` from services/vueInfoService, not under
src/; reconstructed from its uses: a name and optional documentation —
the spec's `MemberDescriptor`). -/
structure PropInfo where
  name : String
  documentation : Option String
deriving DecidableEq

/-- A data entry (`DataInfo`). -/
structure DataInfo where
  name : String
  documentation : Option String
deriving DecidableEq

/-- A computed entry (`ComputedInfo`). -/
structure ComputedInfo where
  name : String
  documentation : Option String
deriving DecidableEq

/-- A method entry (`MethodInfo`). -/
structure MethodInfo where
  name : String
  documentation : Option String
deriving DecidableEq

mutual
/-- The four optional member lists plus child components
(`ComponentInfo` of services/vueInfoService, not under src/;
reconstructed from its uses). -/
inductive ComponentInfo where
  | mk (props : Option (List PropInfo)) (data : Option (List DataInfo))
      (computed : Option (List ComputedInfo)) (methods : Option (List MethodInfo))
      (childComponents : Option (List ChildComponent))
/-- A child component entry (`ChildComponent`); `info` holds the
recursively analyzed component information. -/
inductive ChildComponent where
  | mk (name : String) (documentation : Option String) (definition : Option String)
      (info : Option VueFileInfo)
/-- Embeds `VueFileInfo`. -/
inductive VueFileInfo where
  | mk (componentInfo : ComponentInfo)
end

/-- The `componentInfo` field of a `VueFileInfo`. -/
def VueFileInfo.componentInfo : VueFileInfo → ComponentInfo
  | .mk ci => ci

/-- The `props` field of a `ComponentInfo`. -/
def ComponentInfo.props : ComponentInfo → Option (List PropInfo)
  | .mk p _ _ _ _ => p

/-- The `data` field of a `ComponentInfo`. -/
def ComponentInfo.data : ComponentInfo → Option (List DataInfo)
  | .mk _ d _ _ _ => d

/-- The `computed` field of a `ComponentInfo`. -/
def ComponentInfo.computed : ComponentInfo → Option (List ComputedInfo)
  | .mk _ _ c _ _ => c

/-- The `methods` field of a `ComponentInfo`. -/
def ComponentInfo.methods : ComponentInfo → Option (List MethodInfo)
  | .mk _ _ _ m _ => m

/-- The `childComponents` field of a `ComponentInfo`. -/
def ComponentInfo.childComponents : ComponentInfo → Option (List ChildComponent)
  | .mk _ _ _ _ cc => cc

/-- Embeds `formatJSLikeDocumentation`'s `src.search(/\S/)`: index of the first
non-whitespace character, `-1` when none (JavaScript semantics). -/
def jsSearchNonSpace (s : String) : Int :=
  match s.toList.findIdx? (fun c => ¬ c.isWhitespace) with
  | some i => (i : Int)
  | none => -1

/-- JavaScript `String.prototype.slice(start)` with a possibly negative
start index. -/
def jsSlice (s : String) (i : Int) : String :=
  if i < 0 then s.drop (max ((s.toList.length : Int) + i) 0).toNat
  else s.drop i.toNat

/-- Embeds `formatJSLikeDocumentation(src)`: strip the common indentation of
the declaration's last line from every line after the first. -/
def formatJSLikeDocumentation (src : String) : String :=
  let segments := src.splitOn "\n"
  if segments.length = 1 then src
  else
    let spacesToDeindent := jsSearchNonSpace (segments.getLastD "")
    (segments.headD "") ++ "\n"
      ++ String.intercalate "\n" ((segments.drop 1).map (fun s => jsSlice s spacesToDeindent))

/-- Embeds `buildDocumentation(tsModule, s, checker)`: join the doc-comment
parts with newlines, a trailing newline, then a fenced code block with
the declaration's deindented source text.  (The source's two branches on
`PropertyAssignment` build the same string.)  The checker argument of
`getDocumentationComment` is subsumed by the stored part texts. -/
def buildDocumentation (s : TsSymbol) : String :=
  let documentation := String.intercalate "\n" s.documentationComment ++ "\n"
  match s.valueDeclaration with
  | some vd => documentation ++ "```js\n" ++ formatJSLikeDocumentation vd.srcText ++ "\n```\n"
  | none => documentation

/-- Embeds `getLastChild(d)`. -/
def getLastChild (d : TsNode) : Option TsNode :=
  d.children.getLast?

/-- Embeds `isClassType(tsModule, type)`: both branches of the source compute
whether the type is a class type; carried as the type's `isClassFlag`. -/
def isClassType (type : TsType) : Bool :=
  type.isClassFlag

/-- The decorator-name computation shared by `getPropertyDecoratorNames`
and `getComponentDecoratorArgumentType`: the callee text for call
decorators (`@Component(...)`), the expression text otherwise
(`@Component`).  A decorator node always has an expression; an absent
one yields the empty name. -/
def decoratorName (decorator : TsNode) : String :=
  match decorator.expression with
  | some e =>
    if isCallExpression e then
      match e.expression with
      | some callee => callee.srcText
      | none => ""
    else e.srcText
  | none => ""

/-- Embeds `getPropertyDecoratorNames(tsModule, property, checkSyntaxKind)`. -/
def getPropertyDecoratorNames (property : TsSymbol) (checkSyntaxKind : SyntaxKind) : List String :=
  if declOptKind property.valueDeclaration ≠ checkSyntaxKind then []
  else
    match property.declarations.head? with
    | none => []
    | some d0 =>
      match d0.decorators with
      | none => []
      | some decs => decs.map decoratorName

/-- Embeds `getComponentDecoratorArgumentType(tsModule, type, checker)`: the
resolved type of the first argument of a class-level decorator named
`Component` applied as a call; the source reads
`type.symbol.declarations[0].decorators` assuming symbol and declaration
are present (absent ones yield no decorator argument). -/
def getComponentDecoratorArgumentType (checker : TsChecker) (type : TsType) : Option TsType :=
  match (type.symbol.bind (fun s => s.declarations.head?)).bind TsNode.decorators with
  | none => none
  | some decorators =>
    if decorators.length = 0 then none
    else
      match decorators.find? (fun el => decoratorName el = "Component") with
      | none => none
      | some componentDecorator =>
        match componentDecorator.expression with
        | none => none
        | some e =>
          if ¬ isCallExpression e then none
          else
            match e.arguments.head? with
            | none => none
            | some arg0 => some (checker.getTypeAtLocation arg0)

/-- Embeds `getClassAndObjectInfo(tsModule, defaultExportType, checker,
getClassResult, getObjectResult)`: class results first, then — when a
`Component` decorator argument type exists — object-literal results
extracted from it. -/
def getClassAndObjectInfo {α : Type} (checker : TsChecker) (defaultExportType : TsType)
    (getClassResult : TsType → Option (List α)) (getObjectResult : TsType → Option (List α)) :
    List α :=
  if isClassType defaultExportType then
    ((getClassResult defaultExportType).getD [])
      ++ (match getComponentDecoratorArgumentType checker defaultExportType with
          | some decoratorArgumentType => (getObjectResult decoratorArgumentType).getD []
          | none => [])
  else
    (getObjectResult defaultExportType).getD []

/-- Embeds `getClassProps` (local to `getProps`). -/
def getClassProps (checker : TsChecker) (type : TsType) : Option (List PropInfo) :=
  let propDecoratorNames := ["Prop", "Model", "PropSync"]
  let propsSymbols := type.properties.filter (fun property =>
    (getPropertyDecoratorNames property SyntaxKind.PropertyDeclaration).any
      (fun dn => propDecoratorNames.contains dn))
  if propsSymbols.length = 0 then none
  else some (propsSymbols.map (fun prop => ⟨prop.name, some (buildDocumentation prop)⟩))

/-- Embeds `getObjectProps` (local to `getProps`): the array-literal branch
yields one undocumented prop per string-literal element; the
object-literal branch documents each property of the object type. -/
def getObjectProps (checker : TsChecker) (type : TsType) : Option (List PropInfo) :=
  match checker.getPropertyOfType type "props" with
  | none => none
  | some propsSymbol =>
    match propsSymbol.valueDeclaration with
    | none => none
    | some vd =>
      match getLastChild vd with
      | none => none
      | some propsDeclaration =>
        if propsDeclaration.kind = SyntaxKind.ArrayLiteralExpression then
          some ((propsDeclaration.elements.filter
              (fun expr => expr.kind = SyntaxKind.StringLiteral)).map
            (fun expr => ⟨expr.text, none⟩))
        else if propsDeclaration.kind = SyntaxKind.ObjectLiteralExpression then
          let propsType := checker.getTypeOfSymbolAtLocation propsSymbol propsDeclaration
          some ((checker.getPropertiesOfType propsType).map
            (fun s => ⟨s.name, some (buildDocumentation s)⟩))
        else none

/-- Embeds `getProps(tsModule, defaultExportType, checker)`. -/
def getProps (checker : TsChecker) (defaultExportType : TsType) : Option (List PropInfo) :=
  let result := getClassAndObjectInfo checker defaultExportType
    (getClassProps checker) (getObjectProps checker)
  if result.length = 0 then none else some result

/-- Embeds `getClassData` (local to `getData`). -/
def getClassData (checker : TsChecker) (type : TsType) : Option (List DataInfo) :=
  let noDataDecoratorNames := ["Prop", "Model", "Provide", "ProvideReactive", "Ref"]
  let dataSymbols := type.properties.filter (fun property =>
    ¬ (getPropertyDecoratorNames property SyntaxKind.PropertyDeclaration).any
        (fun dn => noDataDecoratorNames.contains dn)
      ∧ ¬ property.name.startsWith "_" ∧ ¬ property.name.startsWith "$")
  if dataSymbols.length = 0 then none
  else some (dataSymbols.map (fun data => ⟨data.name, some (buildDocumentation data)⟩))

/-- Embeds `getObjectData` (local to `getData`): `data` must be callable; the
entries are the properties of its first call signature's return type. -/
def getObjectData (checker : TsChecker) (type : TsType) : Option (List DataInfo) :=
  match checker.getPropertyOfType type "data" with
  | none => none
  | some dataSymbol =>
    match dataSymbol.valueDeclaration with
    | none => none
    | some vd =>
      let dataType := checker.getTypeOfSymbolAtLocation dataSymbol vd
      match dataType.callSignatures.head? with
      | none => none
      | some sig0 =>
        let dataReturnTypeProperties := checker.getReturnTypeOfSignature sig0
        some (dataReturnTypeProperties.properties.map
          (fun s => ⟨s.name, some (buildDocumentation s)⟩))

/-- Embeds `getData(tsModule, defaultExportType, checker)`. -/
def getData (checker : TsChecker) (defaultExportType : TsType) : Option (List DataInfo) :=
  let result := getClassAndObjectInfo checker defaultExportType
    (getClassData checker) (getObjectData checker)
  if result.length = 0 then none else some result

/-- The get-accessor members of a type (local filter of
`getClassComputed`). -/
def getAccessorSymbolsOf (type : TsType) : List TsSymbol :=
  type.properties.filter (fun property =>
    declOptKind property.valueDeclaration = SyntaxKind.GetAccessor)

/-- The set-accessor members of a type (local filter of
`getClassComputed`; the source takes them from the enclosing
`defaultExportType`). -/
def setAccessorSymbolsOf (type : TsType) : List TsSymbol :=
  type.properties.filter (fun property =>
    declOptKind property.valueDeclaration = SyntaxKind.SetAccessor)

/-- Embeds `getClassComputed` (local to `getComputed`): one entry per
get-accessor member; a same-named set accessor's documentation is
appended after the getter's.  `defaultExportType` is the closed-over
outer type the source reads the set accessors from; at its only call
site it equals `type`. -/
def getClassComputed (defaultExportType : TsType) (type : TsType) :
    Option (List ComputedInfo) :=
  let getAccessorSymbols := getAccessorSymbolsOf type
  let setAccessorSymbols := setAccessorSymbolsOf defaultExportType
  if getAccessorSymbols.length = 0 then none
  else some (getAccessorSymbols.map (fun computed =>
    let setComputed := setAccessorSymbols.find? (fun setAccessor => setAccessor.name = computed.name)
    ⟨computed.name, some (buildDocumentation computed
      ++ (match setComputed with
          | some sc => buildDocumentation sc
          | none => ""))⟩))

/-- Embeds `getObjectComputed` (local to `getComputed`); a non-object-literal
`computed` declaration yields `undefined` (the source falls off the end
of the function). -/
def getObjectComputed (checker : TsChecker) (type : TsType) : Option (List ComputedInfo) :=
  match checker.getPropertyOfType type "computed" with
  | none => none
  | some computedSymbol =>
    match computedSymbol.valueDeclaration with
    | none => none
    | some vd =>
      match getLastChild vd with
      | none => none
      | some computedDeclaration =>
        if computedDeclaration.kind = SyntaxKind.ObjectLiteralExpression then
          let computedType := checker.getTypeOfSymbolAtLocation computedSymbol computedDeclaration
          some ((checker.getPropertiesOfType computedType).map
            (fun s => ⟨s.name, some (buildDocumentation s)⟩))
        else none

/-- Embeds `getComputed(tsModule, defaultExportType, checker)`. -/
def getComputed (checker : TsChecker) (defaultExportType : TsType) :
    Option (List ComputedInfo) :=
  let result := getClassAndObjectInfo checker defaultExportType
    (getClassComputed defaultExportType) (getObjectComputed checker)
  if result.length = 0 then none else some result

/-- Embeds `isInternalHook(methodName)`. -/
def isInternalHook (methodName : String) : Bool :=
  let internalHooks := ["data", "beforeCreate", "created", "beforeMount", "mounted",
    "beforeDestroy", "destroyed", "beforeUpdate", "updated", "activated", "deactivated",
    "render", "errorCaptured", "serverPrefetch"]
  internalHooks.contains methodName

/-- Embeds `getClassMethods` (local to `getMethods`). -/
def getClassMethods (checker : TsChecker) (type : TsType) : Option (List MethodInfo) :=
  let methodSymbols := type.properties.filter (fun property =>
    ¬ (getPropertyDecoratorNames property SyntaxKind.MethodDeclaration).any
        (fun dn => dn = "Watch")
      ∧ ¬ isInternalHook property.name)
  if methodSymbols.length = 0 then none
  else some (methodSymbols.map (fun method => ⟨method.name, some (buildDocumentation method)⟩))

/-- Embeds `getObjectMethods` (local to `getMethods`). -/
def getObjectMethods (checker : TsChecker) (type : TsType) : Option (List MethodInfo) :=
  match checker.getPropertyOfType type "methods" with
  | none => none
  | some methodsSymbol =>
    match methodsSymbol.valueDeclaration with
    | none => none
    | some vd =>
      match getLastChild vd with
      | none => none
      | some methodsDeclaration =>
        if methodsDeclaration.kind = SyntaxKind.ObjectLiteralExpression then
          let methodsType := checker.getTypeOfSymbolAtLocation methodsSymbol methodsDeclaration
          some ((checker.getPropertiesOfType methodsType).map
            (fun s => ⟨s.name, some (buildDocumentation s)⟩))
        else none

/-- Embeds `getMethods(tsModule, defaultExportType, checker)`. -/
def getMethods (checker : TsChecker) (defaultExportType : TsType) :
    Option (List MethodInfo) :=
  let result := getClassAndObjectInfo checker defaultExportType
    (getClassMethods checker) (getObjectMethods checker)
  if result.length = 0 then none else some result

/-- Embeds `getNodeFromExportNode(tsModule, exportExpr)`: call expressions hand
over their first argument (`undefined` when there is none), object
literals and class declarations pass through, everything else yields
`undefined`. -/
def getNodeFromExportNode (exportExpr : TsNode) : Option TsNode :=
  match exportExpr.kind with
  | SyntaxKind.CallExpression => exportExpr.arguments.head?
  | SyntaxKind.ObjectLiteralExpression => some exportExpr
  | SyntaxKind.ClassDeclaration => some exportExpr
  | _ => none

/-- Embeds `getDefaultExportNode(tsModule, sourceFile)`: the first top-level
statement that is an export assignment or a class declaration; for an
export assignment its expression is inspected (the expression is always
present on a parsed export assignment; an absent one yields nothing). -/
def getDefaultExportNode (sourceFile : TsSourceFile) : Option TsNode :=
  let exportStmts := sourceFile.statements.filter (fun st =>
    st.kind = SyntaxKind.ExportAssignment ∨ st.kind = SyntaxKind.ClassDeclaration)
  match exportStmts.head? with
  | none => none
  | some st0 =>
    if st0.kind = SyntaxKind.ExportAssignment then
      match st0.expression with
      | some e => getNodeFromExportNode e
      | none => none
    else getNodeFromExportNode st0

/-- Embeds `analyzeDefaultExportExpr(tsModule, defaultExport, checker)`; the
result's `childComponents` is not set by this function. -/
def analyzeDefaultExportExpr (checker : TsChecker) (defaultExport : TsNode) : VueFileInfo :=
  let defaultExportType := checker.getTypeAtLocation defaultExport
  .mk (.mk (getProps checker defaultExportType)
    (getData checker defaultExportType)
    (getComputed checker defaultExportType)
    (getMethods checker defaultExportType)
    none)

/-- An internal child component as returned by the external
`getChildComponents` capability (modes/script/childComponents.ts, not
under src/). -/
structure InternalChildComponent where
  name : String
  documentation : Option String
  definition : Option String
  defaultExportNode : Option TsNode

/-- Modelled from the spec: the type of the external `getChildComponents`
capability (modes/script/childComponents.ts is not under src/): "given
the root type and a tag-casing preference, returns a list of referenced
child components with name/documentation/definition location and, where
resolvable, their own default-export node". -/
def GetChildComponentsFn : Type :=
  TsType → TsChecker → String → Option (List InternalChildComponent)

/-- The configuration slices the embedded code reads
(`config.vetur.completion.*`). -/
structure ConfigCompletion where
  autoImport : Bool
  tagCasing : String
deriving DecidableEq

/-- Embeds `config.vetur.format.options`. -/
structure ConfigFormatOptions where
  tabSize : Nat
  useTabs : Bool
deriving DecidableEq

/-- Embeds `config.vetur.format`. -/
structure ConfigFormat where
  options : ConfigFormatOptions
  scriptInitialIndent : Bool
deriving DecidableEq

/-- Embeds `config.vetur`. -/
structure ConfigVetur where
  completion : ConfigCompletion
  format : ConfigFormat
deriving DecidableEq

/-- The configuration object. -/
structure Config where
  vetur : ConfigVetur
deriving DecidableEq

/-- A TypeScript language-service diagnostic; `messageText` stores the
already-flattened message (`flattenDiagnosticMessageText` is part of the
external typescript module). -/
structure TsDiagnostic where
  start : Nat
  length : Nat
  category : Nat
  messageText : String
  code : Int
  reportsUnnecessary : Bool
deriving DecidableEq

/-- Embeds `ts.DiagnosticCategory` numeric values (Warning = 0, Error = 1,
Suggestion = 2, Message = 3 in the TypeScript module). -/
def tsDiagnosticCategoryWarning : Nat := 0

/-- Embeds `ts.DiagnosticCategory.Error`. -/
def tsDiagnosticCategoryError : Nat := 1

/-- Embeds `ts.DiagnosticCategory.Suggestion`. -/
def tsDiagnosticCategorySuggestion : Nat := 2

/-- Embeds `ts.DiagnosticCategory.Message`. -/
def tsDiagnosticCategoryMessage : Nat := 3

/-- A completion entry returned by the service. -/
structure CompletionEntry where
  name : String
  kind : String
  kindModifiers : Option String
  sortText : Option String
  insertText : Option String
  replacementSpan : Option TextSpan
  isRecommended : Option Bool
  source : Option String
deriving DecidableEq

/-- The service's completion info. -/
structure CompletionInfo where
  entries : List CompletionEntry
deriving DecidableEq

/-- A text change `{ span, newText }`. -/
structure TsTextChange where
  span : TextSpan
  newText : String
deriving DecidableEq

/-- Embeds `ts.FileTextChanges`. -/
structure FileTextChanges where
  fileName : String
  textChanges : List TsTextChange
deriving DecidableEq

/-- A code action attached to completion-entry details (auto-import). -/
structure TsCodeActionEntry where
  description : String
  changes : List FileTextChanges
deriving DecidableEq

/-- Completion entry details. -/
structure CompletionEntryDetails where
  displayParts : List String
  documentation : List String
  codeActions : Option (List TsCodeActionEntry)
deriving DecidableEq

/-- Quick info returned by the service for hover. -/
structure QuickInfo where
  displayParts : List String
  documentation : List String
  textSpan : TextSpan
deriving DecidableEq

/-- A signature-help parameter as returned by the service. -/
structure TsSignatureParameter where
  displayParts : List String
  documentation : List String
deriving DecidableEq

/-- A signature-help item as returned by the service. -/
structure TsSignatureItem where
  prefixDisplayParts : List String
  suffixDisplayParts : List String
  separatorDisplayParts : List String
  parameters : List TsSignatureParameter
deriving DecidableEq

/-- The service's signature-help result. -/
structure TsSignatureHelpItems where
  selectedItemIndex : Nat
  argumentIndex : Nat
  items : List TsSignatureItem
deriving DecidableEq

/-- An occurrence returned by `getOccurrencesAtPosition`. -/
structure TsOccurrence where
  textSpan : TextSpan
  isWriteAccess : Bool
deriving DecidableEq

/-- A navigation-bar item (`ts.NavigationBarItem`): display text, kind
tag, spans and children. -/
inductive NavItem where
  | mk (text : String) (kind : String) (spans : List TextSpan) (childItems : List NavItem)

/-- The navigation item's display text. -/
def NavItem.text : NavItem → String
  | .mk t _ _ _ => t

/-- The navigation item's kind tag. -/
def NavItem.kind : NavItem → String
  | .mk _ k _ _ => k

/-- The navigation item's spans. -/
def NavItem.spans : NavItem → List TextSpan
  | .mk _ _ s _ => s

/-- The navigation item's children. -/
def NavItem.childItems : NavItem → List NavItem
  | .mk _ _ _ c => c

/-- A definition or reference target `{ fileName, textSpan }`. -/
structure FileSpan where
  fileName : String
  textSpan : TextSpan
deriving DecidableEq

/-- An applicable-refactor sub-action. -/
structure RefactorSubAction where
  name : String
  description : String
deriving DecidableEq

/-- An applicable refactoring. -/
structure ApplicableRefactor where
  name : String
  description : String
  inlineable : Bool
  actions : List RefactorSubAction
deriving DecidableEq

/-- A code fix returned by `getCodeFixesAtPosition`. -/
structure TsCodeFix where
  description : String
  changes : List FileTextChanges
  fixId : Option String
  fixAllDescription : Option String
deriving DecidableEq

/-- The edits computed for a refactor. -/
structure RefactorEditInfo where
  edits : List FileTextChanges
deriving DecidableEq

/-- The combined code actions for a fix-all request. -/
structure CombinedCodeActions where
  changes : List FileTextChanges
deriving DecidableEq

/-- The format-code settings passed through to the service
(`getFormatCodeSettings`). -/
structure FormatCodeSettings where
  tabSize : Nat
  indentSize : Nat
  convertTabsToSpaces : Bool
  insertSpaceAfterCommaDelimiter : Bool
deriving DecidableEq

/-- The external TypeScript language service, §6's type-analysis
service, as the structure of every call the embedded code makes.
Following §6/§7 of the spec ("any service call returning no result is
treated as empty at the call site"), calls whose result the code
inspects for absence — and the deferred-edit calls, whose absent results
claim C2 is about — are `Option`-valued.  `preferences` arguments are
always passed as the empty object and are omitted. -/
structure LanguageService where
  getProgram : Option TsProgram
  getSyntacticDiagnostics : String → List TsDiagnostic
  getSemanticDiagnostics : String → List TsDiagnostic
  getSuggestionDiagnostics : String → List TsDiagnostic
  getCompletionsAtPosition : String → Nat → Bool → Option CompletionInfo
  getCompletionEntryDetails :
    String → Nat → String → FormatCodeSettings → Option String → Option CompletionEntryDetails
  getQuickInfoAtPosition : String → Nat → Option QuickInfo
  getSignatureHelpItems : String → Nat → Option TsSignatureHelpItems
  getOccurrencesAtPosition : String → Nat → Option (List TsOccurrence)
  getNavigationBarItems : String → Option (List NavItem)
  getDefinitionAtPosition : String → Nat → Option (List FileSpan)
  getReferencesAtPosition : String → Nat → Option (List FileSpan)
  getApplicableRefactors : String → TextRangeTs → List ApplicableRefactor
  getCodeFixesAtPosition :
    String → Nat → Nat → List Int → FormatCodeSettings → List TsCodeFix
  getEditsForRefactor :
    String → FormatCodeSettings → TextRangeTs → String → String → Option RefactorEditInfo
  getCombinedCodeFix : String → String → FormatCodeSettings → Option CombinedCodeActions
  organizeImports : String → FormatCodeSettings → Option (List FileTextChanges)

/-- Embeds `getComponentInfo(tsModule, service, fileFsPath, config)`; the
external `getChildComponents` capability is a parameter (its module is
not under src/). -/
def getComponentInfo (getChildComponents : GetChildComponentsFn)
    (service : LanguageService) (fileFsPath : String) (config : Config) :
    Option VueFileInfo :=
  match service.getProgram with
  | none => none
  | some program =>
    match program.getSourceFile fileFsPath with
    | none => none
    | some sourceFile =>
      let checker := program.getTypeChecker
      match getDefaultExportNode sourceFile with
      | none => none
      | some defaultExportNode =>
        let vueFileInfo := analyzeDefaultExportExpr checker defaultExportNode
        let defaultExportType := checker.getTypeAtLocation defaultExportNode
        match getChildComponents defaultExportType checker config.vetur.completion.tagCasing with
        | none => some vueFileInfo
        | some internalChildComponents =>
          let childComponents : List ChildComponent :=
            internalChildComponents.map (fun c =>
              .mk c.name c.documentation c.definition
                (c.defaultExportNode.map (fun n => analyzeDefaultExportExpr checker n)))
          match vueFileInfo with
          | .mk (.mk p d cp m _) => some (.mk (.mk p d cp m (some childComponents)))

/-! ## javascript.ts — the language-intelligence orchestrator

Each exposed operation begins with
`const { scriptDoc, service } = updateCurrentVueTextDocument(doc)`;
the service host providing that projection (and the first-script-region
cache used by `convertCodeAction`) is a structure of functions. -/

/-- Modelled from the spec: `getFileFsPath` from utils/paths (not under
src/) converts a document URI to a file-system path; path conversion is
out of the spec's scope, so the URI string is kept unchanged. -/
def getFileFsPath (documentUri : String) : String := documentUri

/-- Modelled from the spec: `getFilePath` from utils/paths (not under
src/), kept as the identity like `getFileFsPath`. -/
def getFilePath (documentUri : String) : String := documentUri

/-- Modelled from the spec: `Uri.file(fileName).toString()` from the
external vscode-uri module. -/
def uriFile (fileName : String) : String := "file://" ++ fileName

/-- Embeds `ts.displayPartsToString` (external typescript module): concatenate
the parts' texts; an absent part list is passed as `[]`. -/
def displayPartsToString (parts : List String) : String := String.join parts

/-- JavaScript string indexing `s[i]`: `undefined` outside the bounds
(in particular for a negative index). -/
def jsStringCharAt (s : String) (i : Int) : Option Char :=
  if i < 0 then none else s.toList.get? i.toNat

/-- JavaScript `a || b` for an optional string `a`: the empty string is
falsy. -/
def jsOrStr (a : Option String) (b : String) : String :=
  match a with
  | some s => if s = "" then b else s
  | none => b

/-- JavaScript truthiness of an optional string (absent or empty is
falsy). -/
def jsTruthyOptStr (o : Option String) : Bool :=
  match o with
  | some s => s ≠ ""
  | none => false

/-- The first script region of a host document (`LanguageRange`); only
its start position is consulted by the embedded code. -/
structure LanguageRange where
  start : Pos
deriving DecidableEq

/-- The service host: `updateCurrentVueTextDocument` projects the
virtual script document and yields the external language service, and
`firstScriptRegion` is the region cache's `refreshAndGet` (the cache
module is not under src/). -/
structure ServiceHost where
  updateCurrentVueTextDocument : TextDoc → TextDoc × LanguageService
  firstScriptRegion : TextDoc → Option LanguageRange

/-- Embeds `languageServiceIncludesFile(ls, documentUri)`: whether the service's
loaded root-file set contains the document's file path.  The source
non-null asserts the program; an absent program yields an empty root
set here. -/
def languageServiceIncludesFile (ls : LanguageService) (documentUri : String) : Bool :=
  let filePaths := match ls.getProgram with
    | some program => program.getRootFileNames
    | none => []
  let filePath := getFilePath documentUri
  filePaths.contains filePath

/-- Embeds `convertTSDiagnosticCategoryToDiagnosticSeverity`; the category is a
`ts.DiagnosticCategory` numeric value, so the four cases are total. -/
def convertTSDiagnosticCategoryToDiagnosticSeverity (c : Nat) : DiagnosticSeverity :=
  if c = tsDiagnosticCategoryError then DiagnosticSeverity.error
  else if c = tsDiagnosticCategoryWarning then DiagnosticSeverity.warning
  else if c = tsDiagnosticCategoryMessage then DiagnosticSeverity.information
  else DiagnosticSeverity.hint

/-- Embeds `doValidation(doc)`: concatenate syntactic, semantic and suggestion
diagnostics, translate spans, tag with the fixed source label. -/
def doValidation (host : ServiceHost) (doc : TextDoc) : List Diagnostic :=
  let scriptDoc := (host.updateCurrentVueTextDocument doc).1
  let service := (host.updateCurrentVueTextDocument doc).2
  if languageServiceIncludesFile service doc.uri then
    let fileFsPath := getFileFsPath doc.uri
    let rawScriptDiagnostics :=
      service.getSyntacticDiagnostics fileFsPath
        ++ service.getSemanticDiagnostics fileFsPath
        ++ service.getSuggestionDiagnostics fileFsPath
    rawScriptDiagnostics.map (fun diag =>
      let tags : List DiagnosticTag :=
        if diag.reportsUnnecessary then [DiagnosticTag.unnecessary] else []
      ⟨convertRange scriptDoc ⟨diag.start, diag.length⟩,
        convertTSDiagnosticCategoryToDiagnosticSeverity diag.category,
        diag.messageText, tags, diag.code, "Vetur"⟩)
  else []

/-- Embeds `NON_SCRIPT_TRIGGERS`: the fixed trigger blacklist (the source's
one-character strings are represented as characters). -/
def NON_SCRIPT_TRIGGERS : List Char := ['<', '*', ':']

/-- Embeds `calculateLabelAndDetailTextForPathImport(entry)` (local to
`doComplete`): label/detail for path-like completions;
`ts.ScriptElementKind.scriptElement` is the tag `"script"`. -/
def calculateLabelAndDetailTextForPathImport (entry : CompletionEntry) :
    String × Option String :=
  if entry.kind = "script" then
    if jsTruthyOptStr entry.kindModifiers then
      (entry.name, some (entry.name ++ entry.kindModifiers.getD ""))
    else if entry.name.endsWith ".vue" then
      (entry.name.dropRight ".vue".length, some entry.name)
    else (entry.name, none)
  else (entry.name, none)

/-- Embeds `doComplete(doc, position)`. -/
def doComplete (config : Config) (host : ServiceHost) (doc : TextDoc) (position : Pos) :
    CompletionList :=
  let scriptDoc := (host.updateCurrentVueTextDocument doc).1
  let service := (host.updateCurrentVueTextDocument doc).2
  if languageServiceIncludesFile service doc.uri then
    let fileFsPath := getFileFsPath doc.uri
    let offset := scriptDoc.offsetAt position
    let triggerChar := jsStringCharAt doc.text ((offset : Int) - 1)
    if (match triggerChar with
        | some c => NON_SCRIPT_TRIGGERS.contains c
        | none => false) then
      ⟨false, []⟩
    else
      match service.getCompletionsAtPosition fileFsPath offset
          config.vetur.completion.autoImport with
      | none => ⟨false, []⟩
      | some completions =>
        let entries := completions.entries.filter (fun entry => entry.name ≠ "__vueEditorBridge")
        ⟨false, entries.map (fun entry =>
          let range := entry.replacementSpan.map (fun sp => convertRange scriptDoc sp)
          let filterText : Option String :=
            match entry.insertText, range with
            | some it, some _ =>
              if it.toList.head? = some '[' then some ("." ++ entry.name) else none
            | _, _ => none
          let labelDetail := calculateLabelAndDetailTextForPathImport entry
          let kind := toCompletionItemKind entry.kind
          let insertTextFormat : Option InsertTextFormat :=
            if kind = completionItemKindFunction ∨ kind = completionItemKindMethod then
              some InsertTextFormat.snippet
            else none
          let insertText := jsOrStr entry.insertText entry.name
          { uri := doc.uri
            position := position
            preselect := match entry.isRecommended with
              | some true => some true
              | _ => none
            label := labelDetail.1
            detail := labelDetail.2
            filterText := filterText
            insertTextFormat := insertTextFormat
            sortText := entry.sortText
            kind := some (toCompletionItemKind entry.kind)
            textEdit := range.map (fun r => TextEdit.replace r insertText)
            insertText := if range.isSome then none else some insertText
            data := some ⟨scriptDoc.languageId, doc.uri, offset, entry.source⟩
            documentation := none
            additionalTextEdits := none })⟩
  else ⟨false, []⟩

/-- Embeds `getFormatCodeSettings(config)`. -/
def getFormatCodeSettings (config : Config) : FormatCodeSettings :=
  ⟨config.vetur.format.options.tabSize,
    config.vetur.format.options.tabSize,
    ¬ config.vetur.format.options.useTabs,
    true⟩

/-- Embeds `convertCodeAction(doc, codeActions, regionStart)`: auto-import
edits placed at or before the script region start with an empty span are
moved to the line after the region start.  The source non-null asserts
the cached region when computing the script start offset; an absent
region contributes offset of position `(0, 0)` here. -/
def convertCodeAction (doc : TextDoc) (codeActions : List TsCodeActionEntry)
    (regionStart : TextDoc → Option LanguageRange) : List TextEdit :=
  let scriptStartOffset :=
    doc.offsetAt (((regionStart doc).map (fun r => r.start)).getD ⟨0, 0⟩)
  codeActions.foldl (fun textEdits action =>
    action.changes.foldl (fun textEdits change =>
      textEdits ++ change.textChanges.map (fun tc =>
        if tc.span.start ≤ scriptStartOffset ∧ tc.span.length = 0 then
          match regionStart doc with
          | some region =>
            ⟨LspRange.create (region.start.line + 1) 0 (region.start.line + 1) 0, tc.newText⟩
          | none => ⟨convertRange doc tc.span, tc.newText⟩
        else ⟨convertRange doc tc.span, tc.newText⟩)) textEdits) []

/-- Embeds `doResolve(doc, item)`: re-query the entry details with the item's
resolution data; translate auto-import edits and append their
descriptions when auto-import is enabled; clear the data.  The source
reads `item.data.offset`/`item.data.source` assuming the data bundle is
present; an absent one contributes offset 0 and no source here. -/
def doResolve (config : Config) (host : ServiceHost) (doc : TextDoc) (item : CompletionItem) :
    CompletionItem :=
  let service := (host.updateCurrentVueTextDocument doc).2
  if languageServiceIncludesFile service doc.uri then
    let fileFsPath := getFileFsPath doc.uri
    let itemData := item.data.getD ⟨"", "", 0, none⟩
    match service.getCompletionEntryDetails fileFsPath itemData.offset item.label
        (getFormatCodeSettings config) itemData.source with
    | none => item
    | some details =>
      if item.kind ≠ some completionItemKindFile ∧ item.kind ≠ some completionItemKindFolder then
        let detail := displayPartsToString details.displayParts
        let baseDocValue := displayPartsToString details.documentation
        match details.codeActions, config.vetur.completion.autoImport with
        | some codeActions, true =>
          let textEdits := convertCodeAction doc codeActions host.firstScriptRegion
          let documentationValue := codeActions.foldl (fun v action =>
            if action.description ≠ "" then v ++ "\n" ++ action.description else v) baseDocValue
          { item with
            detail := some detail
            additionalTextEdits := some textEdits
            documentation := some ⟨"markdown", documentationValue⟩
            data := none }
        | _, _ =>
          { item with
            detail := some detail
            documentation := some ⟨"markdown", baseDocValue⟩
            data := none }
      else item
  else item

/-- Embeds `doHover(doc, position)`: a language-tagged signature block,
preceded by documentation text and a separating newline when the
documentation is non-empty. -/
def doHover (host : ServiceHost) (doc : TextDoc) (position : Pos) : Hover :=
  let scriptDoc := (host.updateCurrentVueTextDocument doc).1
  let service := (host.updateCurrentVueTextDocument doc).2
  if languageServiceIncludesFile service doc.uri then
    let fileFsPath := getFileFsPath doc.uri
    match service.getQuickInfoAtPosition fileFsPath (scriptDoc.offsetAt position) with
    | some info =>
      let display := displayPartsToString info.displayParts
      let docText := displayPartsToString info.documentation
      let markedContents : List MarkedString := [MarkedString.code "ts" display]
      let markedContents :=
        if docText ≠ "" then
          MarkedString.plain docText :: MarkedString.plain "\n" :: markedContents
        else markedContents
      ⟨markedContents, some (convertRange scriptDoc info.textSpan)⟩
    | none => ⟨[], none⟩
  else ⟨[], none⟩

/-- Embeds `doSignatureHelp(doc, position)`: one signature per overload, label
built from prefix, separator-joined parameter labels and suffix. -/
def doSignatureHelp (host : ServiceHost) (doc : TextDoc) (position : Pos) : SignatureHelp :=
  let scriptDoc := (host.updateCurrentVueTextDocument doc).1
  let service := (host.updateCurrentVueTextDocument doc).2
  if languageServiceIncludesFile service doc.uri then
    let fileFsPath := getFileFsPath doc.uri
    match service.getSignatureHelpItems fileFsPath (scriptDoc.offsetAt position) with
    | none => NULL_SIGNATURE
    | some signHelp =>
      ⟨signHelp.selectedItemIndex, signHelp.argumentIndex,
        signHelp.items.map (fun item =>
          ⟨displayPartsToString item.prefixDisplayParts
              ++ String.intercalate (displayPartsToString item.separatorDisplayParts)
                (item.parameters.map (fun p => displayPartsToString p.displayParts))
              ++ displayPartsToString item.suffixDisplayParts,
            none,
            item.parameters.map (fun p =>
              ⟨displayPartsToString p.displayParts, displayPartsToString p.documentation⟩)⟩)⟩
  else NULL_SIGNATURE

/-- Embeds `findDocumentHighlight(doc, position)`. -/
def findDocumentHighlight (host : ServiceHost) (doc : TextDoc) (position : Pos) :
    List DocumentHighlight :=
  let scriptDoc := (host.updateCurrentVueTextDocument doc).1
  let service := (host.updateCurrentVueTextDocument doc).2
  if languageServiceIncludesFile service doc.uri then
    let fileFsPath := getFileFsPath doc.uri
    match service.getOccurrencesAtPosition fileFsPath (scriptDoc.offsetAt position) with
    | some occurrences =>
      occurrences.map (fun entry =>
        ⟨convertRange scriptDoc entry.textSpan,
          if entry.isWriteAccess then DocumentHighlightKind.write
          else DocumentHighlightKind.text⟩)
    | none => []
  else []

/-- The dedup key of `findDocumentSymbols`:
`item.text + item.kind + item.spans[0].start` (a nonempty span list is a
service invariant; an empty one contributes span `(0, 0)`). -/
def navItemSig (text kind : String) (spans : List TextSpan) : String :=
  text ++ kind ++ toString (spans.headD ⟨0, 0⟩).start

mutual
/-- The body of `collectSymbols` of `findDocumentSymbols` for one
navigation item: emit the item unless its kind is the whole-file
`script` kind or its key was already seen (the `existing` map is the
accumulator's second component), then walk the children with the
container label updated to this item's text exactly when it was
emitted. -/
def collectItem (scriptDoc : TextDoc) (uri : String) (item : NavItem)
    (containerLabel : Option String)
    (acc : List SymbolInformation × List String) :
    List SymbolInformation × List String :=
  match item with
  | .mk text kind spans childItems =>
    let sig := navItemSig text kind spans
    if kind ≠ "script" ∧ ¬ sig ∈ acc.2 then
      let symbol : SymbolInformation :=
        ⟨text, toSymbolKind kind,
          ⟨uri, convertRange scriptDoc (spans.headD ⟨0, 0⟩)⟩, containerLabel⟩
      collectList scriptDoc uri childItems (some text) (acc.1 ++ [symbol], sig :: acc.2)
    else
      collectList scriptDoc uri childItems containerLabel acc
/-- Embeds `collectSymbols` folded over a list of sibling navigation items. -/
def collectList (scriptDoc : TextDoc) (uri : String) (items : List NavItem)
    (containerLabel : Option String)
    (acc : List SymbolInformation × List String) :
    List SymbolInformation × List String :=
  match items with
  | [] => acc
  | item :: rest =>
    collectList scriptDoc uri rest containerLabel
      (collectItem scriptDoc uri item containerLabel acc)
end

/-- Embeds `findDocumentSymbols(doc)`. -/
def findDocumentSymbols (host : ServiceHost) (doc : TextDoc) : List SymbolInformation :=
  let scriptDoc := (host.updateCurrentVueTextDocument doc).1
  let service := (host.updateCurrentVueTextDocument doc).2
  if languageServiceIncludesFile service doc.uri then
    let fileFsPath := getFileFsPath doc.uri
    match service.getNavigationBarItems fileFsPath with
    | none => []
    | some items => (collectList scriptDoc doc.uri items none ([], [])).1
  else []

/-- Embeds `getSourceDoc(fileName, program)`: a read-only synthetic document
built from the target file's full text.  The source non-null asserts
the source file; an absent one yields an empty document here. -/
def getSourceDoc (fileName : String) (program : TsProgram) : TextDoc :=
  match program.getSourceFile fileName with
  | some sourceFile => TextDocument.create fileName "vue" sourceFile.fullText
  | none => TextDocument.create fileName "vue" ""

/-- Embeds `findDefinition(doc, position)`. -/
def findDefinition (host : ServiceHost) (doc : TextDoc) (position : Pos) : List Location :=
  let scriptDoc := (host.updateCurrentVueTextDocument doc).1
  let service := (host.updateCurrentVueTextDocument doc).2
  if languageServiceIncludesFile service doc.uri then
    let fileFsPath := getFileFsPath doc.uri
    match service.getDefinitionAtPosition fileFsPath (scriptDoc.offsetAt position) with
    | none => []
    | some definitions =>
      match service.getProgram with
      | none => []
      | some program =>
        definitions.map (fun d =>
          ⟨uriFile d.fileName, convertRange (getSourceDoc d.fileName program) d.textSpan⟩)
  else []

/-- Embeds `findReferences(doc, position)`; the source's truthiness check on
the synthetic target document always passes (`getSourceDoc` returns an
object). -/
def findReferences (host : ServiceHost) (doc : TextDoc) (position : Pos) : List Location :=
  let scriptDoc := (host.updateCurrentVueTextDocument doc).1
  let service := (host.updateCurrentVueTextDocument doc).2
  if languageServiceIncludesFile service doc.uri then
    let fileFsPath := getFileFsPath doc.uri
    match service.getReferencesAtPosition fileFsPath (scriptDoc.offsetAt position) with
    | none => []
    | some references =>
      match service.getProgram with
      | none => []
      | some program =>
        references.map (fun r =>
          ⟨uriFile r.fileName, convertRange (getSourceDoc r.fileName program) r.textSpan⟩)
  else []

/-! ## Code actions (CodeActionAggregator) -/

/-- Embeds `CodeActionKind.QuickFix`. -/
def codeActionKindQuickFix : String := "quickfix"

/-- Embeds `CodeActionKind.Refactor`. -/
def codeActionKindRefactor : String := "refactor"

/-- Embeds `CodeActionKind.RefactorExtract`. -/
def codeActionKindRefactorExtract : String := "refactor.extract"

/-- Embeds `CodeActionKind.RefactorInline`. -/
def codeActionKindRefactorInline : String := "refactor.inline"

/-- Embeds `CodeActionKind.RefactorRewrite`. -/
def codeActionKindRefactorRewrite : String := "refactor.rewrite"

/-- Embeds `CodeActionKind.Source`. -/
def codeActionKindSource : String := "source"

/-- Embeds `CodeActionKind.SourceOrganizeImports`. -/
def codeActionKindSourceOrganizeImports : String := "source.organizeImports"

/-- The code-action context passed by the caller: the requested-kind
filter and the diagnostics in range. -/
structure CodeActionContext where
  only : Option (List String)
  diagnostics : List Diagnostic
deriving DecidableEq

/-- Modelled from the spec: `CodeActionReqKind` of src/types (not under
src/), the spec's `CodeActionRequest` kinds
{QuickFixCombined, OrganizeImports, RefactorAction}. -/
inductive CodeActionReqKind where
  | refactorAction
  | combinedCodeFix
  | organizeImports
deriving DecidableEq

/-- Modelled from the spec: the kind-specific arguments of a
`CodeActionRequest` of src/types (not under src/), as the code builds
and reads them. -/
inductive ReqArguments where
  | refactor (refactorName actionName description : String)
  | combined (fixId : String)
  | organize
deriving DecidableEq

/-- The `refactorName` field of refactor arguments; reading it off
non-refactor arguments mirrors a JavaScript read of an absent field
and yields the empty string (the code never builds such a request). -/
def ReqArguments.refactorName : ReqArguments → String
  | .refactor rn _ _ => rn
  | _ => ""

/-- The `actionName` field of refactor arguments. -/
def ReqArguments.actionName : ReqArguments → String
  | .refactor _ an _ => an
  | _ => ""

/-- The `description` field of refactor arguments. -/
def ReqArguments.description : ReqArguments → String
  | .refactor _ _ d => d
  | _ => ""

/-- The `fixId` field of combined-code-fix arguments. -/
def ReqArguments.fixId : ReqArguments → String
  | .combined f => f
  | _ => ""

/-- Modelled from the spec: `CodeActionReq` of src/types (not under
src/): kind, target file, text range, format settings, kind-specific
arguments — "serializable, carries no live handles"; the always-empty
`preferences` object is omitted. -/
structure CodeActionReq where
  kind : CodeActionReqKind
  fileName : String
  textRange : TextRangeTs
  formatSettings : FormatCodeSettings
  arguments : ReqArguments
deriving DecidableEq

/-- The arguments of an LSP command built by the source: either a
deferred `CodeActionReq` or a `{ changes }` workspace-edit mapping from
file URI to text edits. -/
inductive CommandArguments where
  | request (action : CodeActionReq)
  | workspaceEdits (changes : List (String × List TextEdit))
deriving DecidableEq

/-- An LSP command. -/
structure LspCommand where
  title : String
  command : String
  arguments : CommandArguments
deriving DecidableEq

/-- An LSP code action as built by the source. -/
structure CodeAction where
  title : String
  kind : String
  diagnostics : Option (List Diagnostic)
  command : LspCommand
deriving DecidableEq

/-- Embeds `createRequestCodeActionCommand(title, action)`. -/
def createRequestCodeActionCommand (title : String) (action : CodeActionReq) : LspCommand :=
  ⟨title, "vetur.chooseTypeScriptCodeAction", CommandArguments.request action⟩

/-- Embeds `createApplyCodeActionCommand(title, uriTextEditMapping)`. -/
def createApplyCodeActionCommand (title : String)
    (uriTextEditMapping : List (String × List TextEdit)) : LspCommand :=
  ⟨title, "vetur.applyWorkspaceEdits", CommandArguments.workspaceEdits uriTextEditMapping⟩

/-- The `result[uri]` upsert of `createUriMappingForEdits`: append to an
existing entry's edits, otherwise add a new entry. -/
def upsertEdits (result : List (String × List TextEdit)) (uri : String)
    (edits : List TextEdit) : List (String × List TextEdit) :=
  if (result.find? (fun kv => kv.1 = uri)).isSome then
    result.map (fun kv => if kv.1 = uri then (kv.1, kv.2 ++ edits) else kv)
  else result ++ [(uri, edits)]

/-- Embeds `createUriMappingForEdits(changes, service)`: aggregate file-scoped
text changes into a file-URI-to-edits map, converting each span against
a synthetic document built from the target file's text.  The source
non-null asserts the program; an absent one yields the empty map. -/
def createUriMappingForEdits (changes : List FileTextChanges) (service : LanguageService) :
    List (String × List TextEdit) :=
  match service.getProgram with
  | none => []
  | some program =>
    changes.foldl (fun result fc =>
      let targetDoc := getSourceDoc fc.fileName program
      let edits := fc.textChanges.map (fun tc => ⟨convertRange targetDoc tc.span, tc.newText⟩)
      upsertEdits result (uriFile fc.fileName) edits) []

/-- Embeds `provideRefactoringCommands(fileName, textRange, context,
formatSettings, preferences, service, result)`: one deferred action per
inlineable refactoring, one per named sub-action otherwise. -/
def provideRefactoringCommands (fileName : String) (textRange : TextRangeTs)
    (context : CodeActionContext) (formatSettings : FormatCodeSettings)
    (service : LanguageService) : List CodeAction :=
  if (match context.only with
      | some only => ! only.any (fun el =>
          [codeActionKindRefactor, codeActionKindRefactorExtract, codeActionKindRefactorInline,
            codeActionKindRefactorRewrite, codeActionKindSource].contains el)
      | none => false) then []
  else
    let refactorings := service.getApplicableRefactors fileName textRange
    let actions : List CodeActionReq := refactorings.foldl (fun acc refactoring =>
      if refactoring.inlineable then
        acc ++ [⟨CodeActionReqKind.refactorAction, fileName, textRange, formatSettings,
          ReqArguments.refactor refactoring.name refactoring.name refactoring.description⟩]
      else
        acc ++ refactoring.actions.map (fun action =>
          ⟨CodeActionReqKind.refactorAction, fileName, textRange, formatSettings,
            ReqArguments.refactor refactoring.name action.name action.description⟩)) []
    actions.map (fun action =>
      ⟨action.arguments.description, codeActionKindRefactor, none,
        createRequestCodeActionCommand action.arguments.description action⟩)

/-- The fixable diagnostic codes of `provideQuickFixCodeActions`:
`context.diagnostics.map(d => +d.code!).filter(c =>
supportedCodeFixCodes.has(c))`. -/
def fixableDiagnosticCodesOf (context : CodeActionContext)
    (supportedCodeFixCodes : List Int) : List Int :=
  (context.diagnostics.map (fun d => d.code)).filter
    (fun c => supportedCodeFixCodes.contains c)

/-- Embeds `provideQuickFixCodeActions(fileName, textRange, context,
supportedCodeFixCodes, formatSettings, preferences, service, result)`:
quick fixes are requested only for the supported subset of the context
diagnostics' codes; each fix yields one immediate action and, when it
offers a fix-all variant, one deferred combined-code-fix action.  (The
source's `if (!fixableDiagnosticCodes) return` guard never fires: a
JavaScript array is always truthy.) -/
def provideQuickFixCodeActions (fileName : String) (textRange : TextRangeTs)
    (context : CodeActionContext) (supportedCodeFixCodes : List Int)
    (formatSettings : FormatCodeSettings) (service : LanguageService) : List CodeAction :=
  if (match context.only with
      | some only => ! only.contains codeActionKindQuickFix
      | none => false) then []
  else
    let fixableDiagnosticCodes := fixableDiagnosticCodesOf context supportedCodeFixCodes
    let fixes := service.getCodeFixesAtPosition fileName textRange.pos textRange.endPos
      fixableDiagnosticCodes formatSettings
    fixes.foldl (fun result fix =>
      let immediate : CodeAction :=
        ⟨fix.description, codeActionKindQuickFix, some context.diagnostics,
          createApplyCodeActionCommand fix.description
            (createUriMappingForEdits fix.changes service)⟩
      if jsTruthyOptStr fix.fixAllDescription ∧ jsTruthyOptStr fix.fixId then
        result ++ [immediate,
          ⟨fix.fixAllDescription.getD "", codeActionKindQuickFix, some context.diagnostics,
            createRequestCodeActionCommand (fix.fixAllDescription.getD "")
              ⟨CodeActionReqKind.combinedCodeFix, fileName, textRange, formatSettings,
                ReqArguments.combined (fix.fixId.getD "")⟩⟩]
      else result ++ [immediate]) []

/-- Embeds `provideOrganizeImports(fileName, textRange, context,
formatSettings, preferences, service, result)`: emitted only when the
caller's filter explicitly includes organize-imports or the general
source kind; always deferred. -/
def provideOrganizeImports (fileName : String) (textRange : TextRangeTs)
    (context : CodeActionContext) (formatSettings : FormatCodeSettings) : List CodeAction :=
  match context.only with
  | none => []
  | some only =>
    if ¬ only.contains codeActionKindSourceOrganizeImports
        ∧ ¬ only.contains codeActionKindSource then []
    else
      [⟨"Organize Imports", codeActionKindSourceOrganizeImports, none,
        createRequestCodeActionCommand "Organize Imports"
          ⟨CodeActionReqKind.organizeImports, fileName, textRange, formatSettings,
            ReqArguments.organize⟩⟩]

/-- The external typescript module surface used by `getCodeActions`:
`ts.getSupportedCodeFixes()` returns the supported error codes as
strings. -/
structure TsModule where
  getSupportedCodeFixes : List String

/-- The supported-fix-code set computation of `getCodeActions`:
`new Set(ts.getSupportedCodeFixes().map(Number).filter(x => !isNaN(x)))`
— parse each string as a number, keep the parseable ones. -/
def computeSupportedCodes (tsModule : TsModule) : List Int :=
  tsModule.getSupportedCodeFixes.filterMap String.toInt?

/-- Embeds `getCodeActions(doc, range, _formatParams, context)`.  The
closure-captured lazily-initialized `supportedCodeFixCodes` is threaded
explicitly: the input state is `none` before the first call, and the
output state is the set used, so that laziness and immutability are
provable. -/
def getCodeActions (tsModule : TsModule) (config : Config) (host : ServiceHost)
    (doc : TextDoc) (range : LspRange) (context : CodeActionContext)
    (supportedCodeFixCodesState : Option (List Int)) :
    List CodeAction × Option (List Int) :=
  let scriptDoc := (host.updateCurrentVueTextDocument doc).1
  let service := (host.updateCurrentVueTextDocument doc).2
  let fileName := getFileFsPath scriptDoc.uri
  let start := scriptDoc.offsetAt range.start
  let endOffset := scriptDoc.offsetAt range.endPos
  let textRange : TextRangeTs := ⟨start, endOffset⟩
  let supportedCodeFixCodes := match supportedCodeFixCodesState with
    | some s => s
    | none => computeSupportedCodes tsModule
  let formatSettings := getFormatCodeSettings config
  let result :=
    provideQuickFixCodeActions fileName textRange context supportedCodeFixCodes
        formatSettings service
      ++ provideOrganizeImports fileName textRange context formatSettings
      ++ provideRefactoringCommands fileName textRange context formatSettings service
  (result, some supportedCodeFixCodes)

/-- Embeds `getCodeActionEdits(doc, req)`: dispatch the deferred request by
kind.  Only the refactor branch checks the service result for absence;
the combined-code-fix and organize-imports branches read the result
directly (`fix.changes.slice()` / `response.slice()`), so an absent
result there raises a `TypeError`, modelled as `Except.error`. -/
def getCodeActionEdits (host : ServiceHost) (doc : TextDoc) (req : CodeActionReq) :
    Except String LspCommand :=
  let service := (host.updateCurrentVueTextDocument doc).2
  if req.kind = CodeActionReqKind.refactorAction then
    match service.getEditsForRefactor req.fileName req.formatSettings req.textRange
        req.arguments.refactorName req.arguments.actionName with
    | none => Except.ok (createApplyCodeActionCommand "" [])
    | some response =>
      Except.ok (createApplyCodeActionCommand ""
        (createUriMappingForEdits response.edits service))
  else if req.kind = CodeActionReqKind.combinedCodeFix then
    match service.getCombinedCodeFix req.fileName req.arguments.fixId req.formatSettings with
    | none => Except.error "TypeError: cannot read changes of an absent combined fix"
    | some fix =>
      Except.ok (createApplyCodeActionCommand ""
        (createUriMappingForEdits fix.changes service))
  else if req.kind = CodeActionReqKind.organizeImports then
    match service.organizeImports req.fileName req.formatSettings with
    | none => Except.error "TypeError: cannot slice an absent organize-imports result"
    | some response =>
      Except.ok (createApplyCodeActionCommand ""
        (createUriMappingForEdits response service))
  else Except.ok (createApplyCodeActionCommand "" [])

/-! ## Shared concrete fixtures for witnesses and counterexamples -/

/-- An empty resolved type. -/
def emptyTsType : TsType := ⟨[], false, none, []⟩

/-- A checker answering every query with the empty result. -/
def emptyChecker : TsChecker :=
  ⟨fun _ => emptyTsType, fun _ _ => none, fun _ _ => emptyTsType,
    fun _ => [], fun _ => emptyTsType⟩

/-- A language service answering every query with the empty result. -/
def emptyService : LanguageService where
  getProgram := none
  getSyntacticDiagnostics := fun _ => []
  getSemanticDiagnostics := fun _ => []
  getSuggestionDiagnostics := fun _ => []
  getCompletionsAtPosition := fun _ _ _ => none
  getCompletionEntryDetails := fun _ _ _ _ _ => none
  getQuickInfoAtPosition := fun _ _ => none
  getSignatureHelpItems := fun _ _ => none
  getOccurrencesAtPosition := fun _ _ => none
  getNavigationBarItems := fun _ => none
  getDefinitionAtPosition := fun _ _ => none
  getReferencesAtPosition := fun _ _ => none
  getApplicableRefactors := fun _ _ => []
  getCodeFixesAtPosition := fun _ _ _ _ _ => []
  getEditsForRefactor := fun _ _ _ _ _ => none
  getCombinedCodeFix := fun _ _ _ => none
  organizeImports := fun _ _ => none

/-- A sample configuration. -/
def sampleConfig : Config := ⟨⟨⟨true, "kebab"⟩, ⟨⟨2, false⟩, false⟩⟩⟩

/-- A sample external typescript module with one supported fix code. -/
def sampleTsModule : TsModule := ⟨["2304", "nonsense"]⟩

/-- A bare identifier node. -/
def identNode (name : String) : TsNode :=
  TsNode.node SyntaxKind.Identifier name name [] none [] [] none

/-- A string-literal node. -/
def strLitNode (s : String) : TsNode :=
  TsNode.node SyntaxKind.StringLiteral s ("\x27" ++ s ++ "\x27") [] none [] [] none

/-! ## C3 -/

/-- C3: for every document and cursor position, if the character
immediately before the cursor (read from the host document's text at the
script document's offset, exactly as the source does) is one of the
blacklisted trigger characters `<`, `*`, `:`, then `doComplete` returns
the empty, not-incomplete completion list.  The theorem quantifies over
every host, document and configuration — in particular over every
behaviour of the service's `getCompletionsAtPosition` — so the result is
independent of (and needs no query to) the external service. -/
theorem trigger_blacklist_suppresses_completion
    (config : Config) (host : ServiceHost) (doc : TextDoc) (position : Pos) (c : Char)
    (h : jsStringCharAt doc.text
      ((((host.updateCurrentVueTextDocument doc).1.offsetAt position : Int)) - 1) = some c)
    (hc : NON_SCRIPT_TRIGGERS.contains c = true) :
    doComplete config host doc position = ⟨false, []⟩ := by
  unfold doComplete
  by_cases hinc :
      languageServiceIncludesFile (host.updateCurrentVueTextDocument doc).2 doc.uri = true
  · simp only [hinc, if_true, h, hc, if_pos]
  · simp only [Bool.not_eq_true] at hinc
    simp only [hinc, Bool.false_eq_true, if_false]

/-- A document whose text ends in `<` with the cursor after it. -/
def c3Doc : TextDoc := ⟨"file:///a.vue", "vue", "a<", fun _ => 2, fun _ => ⟨0, 0⟩⟩

/-- A service that does include the document in its root set and would
return a completion entry if it were queried. -/
def c3Service : LanguageService :=
  { emptyService with
    getProgram := some ⟨["file:///a.vue"], fun _ => none, emptyChecker⟩
    getCompletionsAtPosition := fun _ _ _ =>
      some ⟨[⟨"shouldNotAppear", "const", none, none, none, none, none, none⟩]⟩ }

/-- The host pairing `c3Doc` with `c3Service`. -/
def c3Host : ServiceHost := ⟨fun d => (d, c3Service), fun _ => none⟩

/-- Witness for C3: at the concrete document whose cursor follows `<`,
completion is suppressed even though the file is a root file and the
service would offer an entry. -/
theorem trigger_blacklist_suppresses_completion_witness :
    languageServiceIncludesFile c3Service c3Doc.uri = true
    ∧ doComplete sampleConfig c3Host c3Doc ⟨0, 2⟩ = ⟨false, []⟩ :=
  ⟨rfl, trigger_blacklist_suppresses_completion sampleConfig c3Host c3Doc ⟨0, 2⟩
    '<' rfl rfl⟩

/-! ## C5 -/

/-- The statement filter of `getDefaultExportNode`. -/
def isExportStmtKind (st : TsNode) : Prop :=
  st.kind = SyntaxKind.ExportAssignment ∨ st.kind = SyntaxKind.ClassDeclaration

instance (st : TsNode) : Decidable (isExportStmtKind st) := by
  unfold isExportStmtKind
  infer_instance

/-- C5: the default-export node is taken from the first top-level
statement that is an export-assignment or a class declaration (for an
export assignment, from its exported expression); when no such statement
exists, `getDefaultExportNode` is `undefined` and `getComponentInfo`
yields nothing, so no props/data/computed/methods metadata is
produced. -/
theorem no_default_export_no_metadata :
    (∀ sourceFile : TsSourceFile,
      sourceFile.statements.filter (fun st => isExportStmtKind st) = [] →
      getDefaultExportNode sourceFile = none)
    ∧ (∀ (sourceFile : TsSourceFile) (st : TsNode) (rest : List TsNode),
      sourceFile.statements.filter (fun st => isExportStmtKind st) = st :: rest →
      getDefaultExportNode sourceFile =
        (if st.kind = SyntaxKind.ExportAssignment then
          match st.expression with
          | some e => getNodeFromExportNode e
          | none => none
        else getNodeFromExportNode st))
    ∧ (∀ (getChildComponents : GetChildComponentsFn) (service : LanguageService)
        (fileFsPath : String) (config : Config) (program : TsProgram)
        (sourceFile : TsSourceFile),
      service.getProgram = some program →
      program.getSourceFile fileFsPath = some sourceFile →
      sourceFile.statements.filter (fun st => isExportStmtKind st) = [] →
      getComponentInfo getChildComponents service fileFsPath config = none) := by
  have hnode : ∀ sourceFile : TsSourceFile,
      sourceFile.statements.filter (fun st => isExportStmtKind st) = [] →
      getDefaultExportNode sourceFile = none := by
    intro sourceFile hfilter
    unfold getDefaultExportNode
    simp only [isExportStmtKind] at hfilter
    rw [hfilter]
    rfl
  refine ⟨hnode, ?_, ?_⟩
  · intro sourceFile st rest hfilter
    unfold getDefaultExportNode
    simp only [isExportStmtKind] at hfilter
    rw [hfilter]
    rfl
  · intro getChildComponents service fileFsPath config program sourceFile hprog hsf hfilter
    unfold getComponentInfo
    simp only [hprog, hsf, hnode sourceFile hfilter]

/-- A source file with one bare statement of no relevant kind. -/
def c5SourceFile : TsSourceFile := ⟨[identNode "foo"], "foo"⟩

/-- A service exposing `c5SourceFile` for a root file. -/
def c5Service : LanguageService :=
  { emptyService with
    getProgram := some ⟨["file:///a.vue"], fun _ => some c5SourceFile, emptyChecker⟩ }

/-- Witness for C5: a file without an export-assignment or class
declaration yields no default-export node and no component metadata. -/
theorem no_default_export_no_metadata_witness :
    getDefaultExportNode c5SourceFile = none
    ∧ getComponentInfo (fun _ _ _ => none) c5Service "file:///a.vue" sampleConfig = none :=
  ⟨no_default_export_no_metadata.1 c5SourceFile rfl,
    no_default_export_no_metadata.2.2 (fun _ _ _ => none) c5Service "file:///a.vue"
      sampleConfig _ c5SourceFile rfl rfl rfl⟩

/-! ## C10 -/

/-- An object-literal node used as the call argument. -/
def c10ObjNode : TsNode :=
  TsNode.node SyntaxKind.ObjectLiteralExpression "" "\x7b\x7d" [] none [] [] none

/-- A `Vue.extend({...})`-style call node. -/
def c10CallNode : TsNode :=
  TsNode.node SyntaxKind.CallExpression "" "Vue.extend(\x7b\x7d)" []
    (some (identNode "Vue.extend")) [c10ObjNode] [] none

/-- An export-assignment statement exporting the call. -/
def c10ExportStmt : TsNode :=
  TsNode.node SyntaxKind.ExportAssignment "" "export default Vue.extend(\x7b\x7d)" []
    (some c10CallNode) [] [] none

/-- A helper class declaration preceding the export assignment. -/
def c10ClassStmt : TsNode :=
  TsNode.node SyntaxKind.ClassDeclaration "Helper" "class Helper \x7b\x7d" [] none [] [] none

/-- A source file whose first export-assignment exports a call, but with
an earlier class declaration. -/
def c10SourceFile : TsSourceFile :=
  ⟨[c10ClassStmt, c10ExportStmt], "class Helper \x7b\x7d\nexport default Vue.extend(\x7b\x7d)"⟩

/-- Counterexample for C10: in `c10SourceFile` the first top-level
export-assignment exports a call expression, yet the default-export
node chosen for analysis is the earlier class declaration (a node of
class kind), not the call's first argument (a node of object-literal
kind): `getDefaultExportNode` prefers the first statement that is an
export-assignment *or class declaration*. -/
theorem class_before_export_assignment_cex :
    c10ExportStmt.kind = SyntaxKind.ExportAssignment
    ∧ (c10ExportStmt.expression.map TsNode.kind) = some SyntaxKind.CallExpression
    ∧ c10SourceFile.statements = [c10ClassStmt, c10ExportStmt]
    ∧ getDefaultExportNode c10SourceFile = some c10ClassStmt
    ∧ c10ClassStmt.kind = SyntaxKind.ClassDeclaration
    ∧ (c10CallNode.arguments.head?.map TsNode.kind) = some SyntaxKind.ObjectLiteralExpression :=
  ⟨rfl, rfl, rfl, rfl, rfl, rfl⟩

/-- C10 (amended): when the *first top-level statement that is an
export-assignment or class declaration* is an export-assignment whose
expression is a call expression, analysis is applied to the call's
first argument; and when that expression is of any kind other than a
call expression, object-literal expression or class declaration, the
default-export node is `undefined` and `getComponentInfo` yields no
metadata. -/
theorem export_call_expression_dispatch :
    (∀ (sourceFile : TsSourceFile) (st : TsNode) (rest : List TsNode)
        (e a : TsNode) (args : List TsNode),
      sourceFile.statements.filter (fun st => isExportStmtKind st) = st :: rest →
      st.kind = SyntaxKind.ExportAssignment →
      st.expression = some e →
      e.kind = SyntaxKind.CallExpression →
      e.arguments = a :: args →
      getDefaultExportNode sourceFile = some a)
    ∧ (∀ (sourceFile : TsSourceFile) (st : TsNode) (rest : List TsNode) (e : TsNode),
      sourceFile.statements.filter (fun st => isExportStmtKind st) = st :: rest →
      st.kind = SyntaxKind.ExportAssignment →
      st.expression = some e →
      e.kind ≠ SyntaxKind.CallExpression →
      e.kind ≠ SyntaxKind.ObjectLiteralExpression →
      e.kind ≠ SyntaxKind.ClassDeclaration →
      getDefaultExportNode sourceFile = none)
    ∧ (∀ (getChildComponents : GetChildComponentsFn) (service : LanguageService)
        (fileFsPath : String) (config : Config) (program : TsProgram)
        (sourceFile : TsSourceFile) (st : TsNode) (rest : List TsNode) (e : TsNode),
      service.getProgram = some program →
      program.getSourceFile fileFsPath = some sourceFile →
      sourceFile.statements.filter (fun st => isExportStmtKind st) = st :: rest →
      st.kind = SyntaxKind.ExportAssignment →
      st.expression = some e →
      e.kind ≠ SyntaxKind.CallExpression →
      e.kind ≠ SyntaxKind.ObjectLiteralExpression →
      e.kind ≠ SyntaxKind.ClassDeclaration →
      getComponentInfo getChildComponents service fileFsPath config = none) := by
  have hfirst : ∀ (sourceFile : TsSourceFile) (st : TsNode) (rest : List TsNode) (e : TsNode),
      sourceFile.statements.filter (fun st => isExportStmtKind st) = st :: rest →
      st.kind = SyntaxKind.ExportAssignment →
      st.expression = some e →
      getDefaultExportNode sourceFile = getNodeFromExportNode e := by
    intro sourceFile st rest e hfilter hkind hexpr
    unfold getDefaultExportNode
    simp only [isExportStmtKind] at hfilter
    rw [hfilter]
    simp only [List.head?_cons, hkind, if_pos, hexpr]
  have hnone : ∀ (sourceFile : TsSourceFile) (st : TsNode) (rest : List TsNode) (e : TsNode),
      sourceFile.statements.filter (fun st => isExportStmtKind st) = st :: rest →
      st.kind = SyntaxKind.ExportAssignment →
      st.expression = some e →
      e.kind ≠ SyntaxKind.CallExpression →
      e.kind ≠ SyntaxKind.ObjectLiteralExpression →
      e.kind ≠ SyntaxKind.ClassDeclaration →
      getDefaultExportNode sourceFile = none := by
    intro sourceFile st rest e hfilter hkind hexpr h1 h2 h3
    rw [hfirst sourceFile st rest e hfilter hkind hexpr]
    unfold getNodeFromExportNode
    cases hek : e.kind <;> simp_all
  refine ⟨?_, hnone, ?_⟩
  · intro sourceFile st rest e a args hfilter hkind hexpr hcall hargs
    rw [hfirst sourceFile st rest e hfilter hkind hexpr]
    unfold getNodeFromExportNode
    rw [hcall, hargs]
    rfl
  · intro getChildComponents service fileFsPath config program sourceFile st rest e
      hprog hsf hfilter hkind hexpr h1 h2 h3
    unfold getComponentInfo
    simp only [hprog, hsf, hnone sourceFile st rest e hfilter hkind hexpr h1 h2 h3]

/-- A source file exporting a call whose first argument is the object
literal. -/
def c10GoodSourceFile : TsSourceFile :=
  ⟨[c10ExportStmt], "export default Vue.extend(\x7b\x7d)"⟩

/-- A source file exporting a bare identifier. -/
def c10IdentSourceFile : TsSourceFile :=
  ⟨[TsNode.node SyntaxKind.ExportAssignment "" "export default foo" []
      (some (identNode "foo")) [] [] none], "export default foo"⟩

/-- Witness for the amended C10: the call's first argument is chosen for
`c10GoodSourceFile`, and a bare-identifier export yields nothing. -/
theorem export_call_expression_dispatch_witness :
    getDefaultExportNode c10GoodSourceFile = some c10ObjNode
    ∧ getDefaultExportNode c10IdentSourceFile = none :=
  ⟨export_call_expression_dispatch.1 c10GoodSourceFile c10ExportStmt [] c10CallNode
      c10ObjNode [] rfl rfl rfl rfl rfl,
    export_call_expression_dispatch.2.1 c10IdentSourceFile _ [] (identNode "foo")
      rfl rfl rfl (by decide) (by decide) (by decide)⟩

/-! ## C8 -/

/-- The prop list an array-literal `props` declaration produces: one
undocumented prop per string-literal element, in element order. -/
def arrayPropsOf (decl : TsNode) : List PropInfo :=
  (decl.elements.filter (fun expr => expr.kind = SyntaxKind.StringLiteral)).map
    (fun expr => ⟨expr.text, none⟩)

/-- C8: for an object-literal-shaped default export whose `props`
property is declared as an array literal, each string-literal element
yields one prop named by the string's text with absent documentation, in
element order; non-string elements yield nothing; and `getProps` returns
`undefined` (never an empty list) when the extraction is empty. -/
theorem array_props_extraction
    (checker : TsChecker) (type : TsType) (propsSymbol : TsSymbol) (vd decl : TsNode)
    (hcls : isClassType type = false)
    (hprop : checker.getPropertyOfType type "props" = some propsSymbol)
    (hvd : propsSymbol.valueDeclaration = some vd)
    (hlast : getLastChild vd = some decl)
    (hkind : decl.kind = SyntaxKind.ArrayLiteralExpression) :
    getObjectProps checker type = some (arrayPropsOf decl)
    ∧ getProps checker type =
        (if arrayPropsOf decl = [] then none else some (arrayPropsOf decl)) := by
  have hobj : getObjectProps checker type = some (arrayPropsOf decl) := by
    unfold getObjectProps
    simp only [hprop, hvd, hlast, hkind, if_pos]
    rfl
  refine ⟨hobj, ?_⟩
  unfold getProps getClassAndObjectInfo
  simp only [hcls, Bool.false_eq_true, if_false, hobj, Option.getD_some,
    List.length_eq_zero]

/-- A `props: ['a', 'b', c]` declaration node (two string literals and
one identifier element). -/
def c8ArrayDecl : TsNode :=
  TsNode.node SyntaxKind.ArrayLiteralExpression "" "[\x27a\x27, \x27b\x27, c]" [] none []
    [strLitNode "a", strLitNode "b", identNode "c"] none

/-- An empty-array `props: [c]` declaration node with no string
literals. -/
def c8EmptyArrayDecl : TsNode :=
  TsNode.node SyntaxKind.ArrayLiteralExpression "" "[c]" [] none [] [identNode "c"] none

/-- The `props` property-assignment declaration whose last child is the
array literal. -/
def c8PropsAssignment (decl : TsNode) : TsNode :=
  TsNode.node SyntaxKind.PropertyAssignment "" "props: [...]"
    [identNode "props", decl] none [] [] none

/-- The `props` symbol of the object literal. -/
def c8PropsSymbol (decl : TsNode) : TsSymbol :=
  ⟨"props", some (c8PropsAssignment decl), [c8PropsAssignment decl], []⟩

/-- An object-literal component type owning the given `props` symbol. -/
def c8ObjectType : TsType := ⟨[], false, none, []⟩

/-- A checker resolving the `props` property to the given symbol. -/
def c8Checker (decl : TsNode) : TsChecker :=
  { emptyChecker with
    getPropertyOfType := fun _ name =>
      if name = "props" then some (c8PropsSymbol decl) else none }

/-- Witness for C8: `props: ['a','b', c]` yields exactly the two props
`a`, `b` without documentation, and an array without string literals
yields `undefined` props. -/
theorem array_props_extraction_witness :
    getProps (c8Checker c8ArrayDecl) c8ObjectType
        = some [⟨"a", none⟩, ⟨"b", none⟩]
    ∧ getProps (c8Checker c8EmptyArrayDecl) c8ObjectType = none := by
  constructor
  · have h := (array_props_extraction (c8Checker c8ArrayDecl) c8ObjectType
      (c8PropsSymbol c8ArrayDecl) (c8PropsAssignment c8ArrayDecl) c8ArrayDecl
      rfl rfl rfl rfl rfl).2
    rw [h]
    decide
  · have h := (array_props_extraction (c8Checker c8EmptyArrayDecl) c8ObjectType
      (c8PropsSymbol c8EmptyArrayDecl) (c8PropsAssignment c8EmptyArrayDecl) c8EmptyArrayDecl
      rfl rfl rfl rfl rfl).2
    rw [h]
    decide

/-! ## C4 -/

/-- The decorator-argument expression `options` (an identifier, not an
object literal). -/
def c4Ident : TsNode := identNode "options"

/-- The `@Component(options)` decorator expression. -/
def c4DecoratorExpr : TsNode :=
  TsNode.node SyntaxKind.CallExpression "" "Component(options)" []
    (some (identNode "Component")) [c4Ident] [] none

/-- The decorator node itself. -/
def c4Decorator : TsNode :=
  TsNode.node SyntaxKind.OtherKind "" "@Component(options)" []
    (some c4DecoratorExpr) [] [] none

/-- The decorated class declaration. -/
def c4ClassDecl : TsNode :=
  TsNode.node SyntaxKind.ClassDeclaration "Comp" "class Comp \x7b\x7d" [] none [] []
    (some [c4Decorator])

/-- The class symbol. -/
def c4Symbol : TsSymbol := ⟨"Comp", some c4ClassDecl, [c4ClassDecl], []⟩

/-- The resolved type of the decorator argument. -/
def c4ObjType : TsType := ⟨[], false, none, []⟩

/-- The class type of the default export. -/
def c4ClassType : TsType := ⟨[], true, some c4Symbol, []⟩

/-- A checker resolving the argument node to `c4ObjType`. -/
def c4Checker : TsChecker := { emptyChecker with getTypeAtLocation := fun _ => c4ObjType }

/-- A class extractor yielding one member. -/
def c4ClassResult : TsType → Option (List PropInfo) := fun _ => some [⟨"fromClass", none⟩]

/-- An object extractor yielding one member. -/
def c4ObjectResult : TsType → Option (List PropInfo) :=
  fun _ => some [⟨"fromDecoratorObject", none⟩]

/-- Counterexample for C4: the class carries `@Component(options)` whose
first argument is an *identifier*, not an object literal, yet
`getClassAndObjectInfo` still merges the object-literal-style results of
the decorator-argument type after the class results:
`getComponentDecoratorArgumentType` never checks the argument's kind. -/
theorem component_decorator_nonobject_argument_merges :
    c4Ident.kind = SyntaxKind.Identifier
    ∧ getComponentDecoratorArgumentType c4Checker c4ClassType = some c4ObjType
    ∧ getClassAndObjectInfo c4Checker c4ClassType c4ClassResult c4ObjectResult
        = [⟨"fromClass", none⟩, ⟨"fromDecoratorObject", none⟩] :=
  ⟨rfl, rfl, rfl⟩

/-- C4 (amended): for a class-typed default export, each category
extractor merges in object-literal-style results from the
decorator-argument type exactly when the class declaration carries a
class-level decorator named `Component` applied as a call with at least
one argument — of *any* syntactic kind, not only an object literal —
and in the merged list every class-derived member precedes every
decorator-argument-derived member. -/
theorem class_decorator_merge_characterization {α : Type}
    (checker : TsChecker) (type : TsType)
    (getClassResult getObjectResult : TsType → Option (List α))
    (hcls : isClassType type = true) :
    (getClassAndObjectInfo checker type getClassResult getObjectResult
      = (getClassResult type).getD []
        ++ (match getComponentDecoratorArgumentType checker type with
            | some decoratorArgumentType => (getObjectResult decoratorArgumentType).getD []
            | none => []))
    ∧ (∀ t, getComponentDecoratorArgumentType checker type = some t ↔
        ∃ (sym : TsSymbol) (d0 : TsNode) (ds : List TsNode) (cd e a0 : TsNode),
          type.symbol = some sym
          ∧ sym.declarations.head? = some d0
          ∧ d0.decorators = some ds
          ∧ ds.find? (fun el => decoratorName el = "Component") = some cd
          ∧ cd.expression = some e
          ∧ e.kind = SyntaxKind.CallExpression
          ∧ e.arguments.head? = some a0
          ∧ t = checker.getTypeAtLocation a0) := by
  constructor
  · unfold getClassAndObjectInfo
    rw [if_pos hcls]
  · intro t
    constructor
    · intro h
      unfold getComponentDecoratorArgumentType at h
      split at h
      · simp at h
      · rename_i ds hbind
        rcases Option.bind_eq_some.mp hbind with ⟨d0, hos, hdecs⟩
        rcases Option.bind_eq_some.mp hos with ⟨sym, hsym, hd⟩
        split at h
        · simp at h
        · split at h
          · simp at h
          · rename_i cd hfind
            split at h
            · simp at h
            · rename_i e hexpr
              split at h
              · simp at h
              · rename_i hcall
                split at h
                · simp at h
                · rename_i a0 ha
                  refine ⟨sym, d0, ds, cd, e, a0, hsym, hd, hdecs, hfind, hexpr, ?_, ha, ?_⟩
                  · have hcall2 : isCallExpression e = true := by
                      by_contra hcontra
                      exact hcall (by simpa using hcontra)
                    simpa [isCallExpression, decide_eq_true_eq] using hcall2
                  · injection h with h2
                    exact h2.symm
    · rintro ⟨sym, d0, ds, cd, e, a0, hsym, hd, hdec, hfind, hexpr, hcall, ha, ht⟩
      have hne : ¬ ds.length = 0 := by
        intro hlen
        rw [List.length_eq_zero] at hlen
        rw [hlen] at hfind
        simp at hfind
      unfold getComponentDecoratorArgumentType
      rw [hsym]
      simp only [Option.some_bind]
      rw [hd]
      simp only [Option.some_bind]
      rw [hdec]
      simp only [hne, if_false, hfind, hexpr, isCallExpression, hcall, ha, ht]
      simp

/-- Witness for the amended C4: at the concrete decorated class, the
merge equation holds and the characterization certifies the concrete
decorator-argument type. -/
theorem class_decorator_merge_characterization_witness :
    getClassAndObjectInfo c4Checker c4ClassType c4ClassResult c4ObjectResult
      = (c4ClassResult c4ClassType).getD []
        ++ (match getComponentDecoratorArgumentType c4Checker c4ClassType with
            | some decoratorArgumentType => (c4ObjectResult decoratorArgumentType).getD []
            | none => [])
    ∧ getComponentDecoratorArgumentType c4Checker c4ClassType = some c4ObjType :=
  ⟨(class_decorator_merge_characterization c4Checker c4ClassType c4ClassResult
      c4ObjectResult rfl).1,
    ((class_decorator_merge_characterization c4Checker c4ClassType c4ClassResult
      c4ObjectResult rfl).2 c4ObjType).mpr
      ⟨c4Symbol, c4ClassDecl, [c4Decorator], c4Decorator, c4DecoratorExpr, c4Ident,
        rfl, rfl, rfl, rfl, rfl, rfl, rfl, rfl⟩⟩

/-! ## C7 -/

/-- C7: for a class-shaped default export, a member declared as a
get-accessor yields exactly one computed entry (the filter of the
result at its name is a singleton), and that entry's documentation is
the getter's built documentation followed by the first same-named
set-accessor's built documentation when one exists (and nothing
otherwise).  `getClassComputed` is the class-shape extractor that
`getComputed` applies to the default-export type. -/
theorem get_accessor_computed_entry
    (defaultExportType type : TsType) (n : String) (gs : TsSymbol)
    (h1 : (getAccessorSymbolsOf type).filter (fun p => p.name = n) = [gs]) :
    ∃ entries, getClassComputed defaultExportType type = some entries
      ∧ entries.filter (fun e => e.name = n) =
        [⟨gs.name, some (buildDocumentation gs
          ++ (match (setAccessorSymbolsOf defaultExportType).find?
                (fun setAccessor => setAccessor.name = gs.name) with
              | some sc => buildDocumentation sc
              | none => ""))⟩] := by
  have hgs : gs.name = n := by
    have hm : gs ∈ (getAccessorSymbolsOf type).filter (fun p => p.name = n) := by
      rw [h1]
      exact List.mem_singleton.mpr rfl
    have hm2 := List.mem_filter.mp hm
    simpa using hm2.2
  have hne : ¬ (getAccessorSymbolsOf type).length = 0 := by
    intro hlen
    rw [List.length_eq_zero] at hlen
    rw [hlen] at h1
    simp at h1
  simp only [getClassComputed, hne, if_false, ite_false]
  refine ⟨_, rfl, ?_⟩
  rw [List.filter_map]
  have hpred : ∀ l : List TsSymbol,
      List.filter ((fun e : ComputedInfo => decide (e.name = n)) ∘ (fun computed =>
        ({ name := computed.name,
           documentation := some (buildDocumentation computed
            ++ (match (setAccessorSymbolsOf defaultExportType).find?
                  (fun setAccessor => setAccessor.name = computed.name) with
                | some sc => buildDocumentation sc
                | none => "")) } : ComputedInfo))) l
      = List.filter (fun p : TsSymbol => decide (p.name = n)) l := by
    intro l
    rfl
  rw [hpred, h1]
  rfl

/-- A concrete getter symbol named `total`. -/
def c7Getter : TsSymbol :=
  ⟨"total", some (TsNode.node SyntaxKind.GetAccessor "" "get total() \x7b return 1 \x7d" []
    none [] [] none), [], ["the total"]⟩

/-- A concrete setter symbol named `total`. -/
def c7Setter : TsSymbol :=
  ⟨"total", some (TsNode.node SyntaxKind.SetAccessor "" "set total(v) \x7b\x7d" []
    none [] [] none), [], ["set the total"]⟩

/-- The class type owning the accessor pair. -/
def c7ClassType : TsType := ⟨[c7Getter, c7Setter], true, none, []⟩

/-- Witness for C7: the get/set pair named `total` yields exactly one
computed entry whose documentation is the getter's documentation
followed by the setter's. -/
theorem get_accessor_computed_entry_witness :
    ∃ entries, getClassComputed c7ClassType c7ClassType = some entries
      ∧ entries.filter (fun e => e.name = "total") =
        [⟨"total", some (buildDocumentation c7Getter ++ buildDocumentation c7Setter)⟩] := by
  have h := get_accessor_computed_entry c7ClassType c7ClassType "total" c7Getter (by rfl)
  obtain ⟨entries, he, hf⟩ := h
  exact ⟨entries, he, by rw [hf]; rfl⟩

/-! ## C2 -/

/-- C2 (amended): for a deferred request of kind `RefactorAction`, a
null/absent result of the external refactor-edit call yields a command
carrying the empty file-URI-to-edits map, and no error; for the
`CombinedCodeFix` and `OrganizeImports` kinds the code reads the
external result without a null check, so an absent result there raises
instead (see the counterexample). -/
theorem refactor_null_result_empty_edit_map
    (host : ServiceHost) (doc : TextDoc) (req : CodeActionReq)
    (hkind : req.kind = CodeActionReqKind.refactorAction)
    (hnone : (host.updateCurrentVueTextDocument doc).2.getEditsForRefactor req.fileName
      req.formatSettings req.textRange req.arguments.refactorName
      req.arguments.actionName = none) :
    getCodeActionEdits host doc req = Except.ok (createApplyCodeActionCommand "" []) := by
  unfold getCodeActionEdits
  simp only [hkind, if_pos, hnone]

/-- A host with the always-empty service. -/
def c2Host : ServiceHost := ⟨fun d => (d, emptyService), fun _ => none⟩

/-- A concrete document. -/
def c2Doc : TextDoc := TextDocument.create "file:///a.vue" "vue" ""

/-- A deferred refactor request. -/
def c2RefactorReq : CodeActionReq :=
  ⟨CodeActionReqKind.refactorAction, "file:///a.vue", ⟨0, 4⟩,
    getFormatCodeSettings sampleConfig,
    ReqArguments.refactor "Extract function" "Extract function" "Extract function"⟩

/-- A deferred combined-code-fix request. -/
def c2CombinedReq : CodeActionReq :=
  ⟨CodeActionReqKind.combinedCodeFix, "file:///a.vue", ⟨0, 4⟩,
    getFormatCodeSettings sampleConfig, ReqArguments.combined "fixId1"⟩

/-- Witness for the amended C2: the empty service answers the refactor
edit request with nothing and `getCodeActionEdits` returns the
empty-edit-map command. -/
theorem refactor_null_result_empty_edit_map_witness :
    emptyService.getEditsForRefactor c2RefactorReq.fileName c2RefactorReq.formatSettings
      c2RefactorReq.textRange c2RefactorReq.arguments.refactorName
      c2RefactorReq.arguments.actionName = none
    ∧ getCodeActionEdits c2Host c2Doc c2RefactorReq
        = Except.ok (createApplyCodeActionCommand "" []) :=
  ⟨rfl, refactor_null_result_empty_edit_map c2Host c2Doc c2RefactorReq rfl rfl⟩

/-- Counterexample for C2: for the `CombinedCodeFix` kind, a null/absent
result of the external `getCombinedCodeFix` call makes
`getCodeActionEdits` raise (the source dereferences `fix.changes`
without a null check) instead of returning a command with an empty edit
map. -/
theorem combinedCodeFix_null_result_raises :
    emptyService.getCombinedCodeFix c2CombinedReq.fileName c2CombinedReq.arguments.fixId
      c2CombinedReq.formatSettings = none
    ∧ getCodeActionEdits c2Host c2Doc c2CombinedReq
        = Except.error "TypeError: cannot read changes of an absent combined fix"
    ∧ getCodeActionEdits c2Host c2Doc c2CombinedReq
        ≠ Except.ok (createApplyCodeActionCommand "" []) := by
  refine ⟨rfl, rfl, ?_⟩
  intro h
  rw [show getCodeActionEdits c2Host c2Doc c2CombinedReq
    = Except.error "TypeError: cannot read changes of an absent combined fix" from rfl] at h
  exact Except.noConfusion h

/-! ## C6 -/

/-- C6: the lazily-computed supported-fix-code set is created at most
once per process and is immutable afterwards — `getCodeActions` leaves
an already-computed state unchanged and fills an empty state with
`computeSupportedCodes` — and a diagnostic whose numeric code is not a
member of the set is never part of the fixable codes that
`provideQuickFixCodeActions` requests quick fixes for (the service is
invoked with exactly `fixableDiagnosticCodesOf`), so it produces no
quick fix. -/
theorem unsupported_fix_code_filtered_and_lazy_set
    (tsModule : TsModule) (config : Config) (host : ServiceHost) (doc : TextDoc)
    (range : LspRange) (context : CodeActionContext) (st : Option (List Int)) :
    (getCodeActions tsModule config host doc range context st).2
        = some (st.getD (computeSupportedCodes tsModule))
    ∧ (∀ d ∈ context.diagnostics,
        d.code ∉ st.getD (computeSupportedCodes tsModule) →
        d.code ∉ fixableDiagnosticCodesOf context (st.getD (computeSupportedCodes tsModule))) := by
  constructor
  · unfold getCodeActions
    cases st <;> rfl
  · intro d hd hnot hmem
    have h2 := (List.mem_filter.mp hmem).2
    have h3 : d.code ∈ st.getD (computeSupportedCodes tsModule) :=
      List.elem_iff.mp h2
    exact hnot h3

/-- A context carrying one diagnostic with the unsupported code 9999. -/
def c6Context : CodeActionContext :=
  ⟨none, [⟨⟨⟨0, 0⟩, ⟨0, 1⟩⟩, DiagnosticSeverity.error, "m", [], 9999, "Vetur"⟩]⟩

/-- A host with the always-empty service (for the C6 witness). -/
def c6Host : ServiceHost := ⟨fun d => (d, emptyService), fun _ => none⟩

/-- A concrete document (for the C6 witness). -/
def c6Doc : TextDoc := TextDocument.create "file:///a.vue" "vue" ""

/-- Witness for C6: with the set already computed as `{2304}`, a second
call leaves it unchanged (computed at most once, immutable), and the
diagnostic code 9999 is filtered out of the fixable codes. -/
theorem unsupported_fix_code_filtered_and_lazy_set_witness :
    (getCodeActions sampleTsModule sampleConfig c6Host c6Doc ⟨⟨0, 0⟩, ⟨0, 0⟩⟩
        c6Context (some [2304])).2 = some [2304]
    ∧ (9999 : Int) ∉ fixableDiagnosticCodesOf c6Context [2304] := by
  have h := unsupported_fix_code_filtered_and_lazy_set sampleTsModule sampleConfig c6Host
    c6Doc ⟨⟨0, 0⟩, ⟨0, 0⟩⟩ c6Context (some [2304])
  refine ⟨h.1, ?_⟩
  have h2 := h.2 ⟨⟨⟨0, 0⟩, ⟨0, 1⟩⟩, DiagnosticSeverity.error, "m", [], 9999, "Vetur"⟩
    (by decide) (by decide)
  exact h2

/-! ## C1 -/

/-- C1 (amended): when the external service's loaded root-file set does
not contain the host document's file path, each of the nine query
operations that perform the membership check — validate, complete,
resolve, hover, signatureHelp, documentHighlights, documentSymbols,
findDefinition, findReferences — returns its type's neutral empty
result (empty list, empty diagnostics, no-hover contents, the
empty-signature sentinel, or the unchanged item) and, being total
functions of the state, never throws; `getCodeActions`,
`getCodeActionEdits` and `format` perform no such check (see the
counterexample). -/
theorem unincluded_file_neutral_results
    (config : Config) (host : ServiceHost) (doc : TextDoc) (position : Pos)
    (item : CompletionItem)
    (h : languageServiceIncludesFile (host.updateCurrentVueTextDocument doc).2 doc.uri
      = false) :
    doValidation host doc = []
    ∧ doComplete config host doc position = ⟨false, []⟩
    ∧ doResolve config host doc item = item
    ∧ doHover host doc position = ⟨[], none⟩
    ∧ doSignatureHelp host doc position = NULL_SIGNATURE
    ∧ findDocumentHighlight host doc position = []
    ∧ findDocumentSymbols host doc = []
    ∧ findDefinition host doc position = []
    ∧ findReferences host doc position = [] := by
  refine ⟨?_, ?_, ?_, ?_, ?_, ?_, ?_, ?_, ?_⟩ <;>
    simp only [doValidation, doComplete, doResolve, doHover, doSignatureHelp,
      findDocumentHighlight, findDocumentSymbols, findDefinition, findReferences,
      h, Bool.false_eq_true, if_false]

/-- A document for the C1 fixtures. -/
def c1Doc : TextDoc := ⟨"file:///a.vue", "vue", "", fun _ => 0, fun _ => ⟨0, 0⟩⟩

/-- A service whose root-file set is empty but which offers one
inlineable refactoring. -/
def c1Service : LanguageService :=
  { emptyService with
    getProgram := some ⟨[], fun _ => none, emptyChecker⟩
    getApplicableRefactors := fun _ _ =>
      [⟨"Extract function", "Extract function", true, []⟩] }

/-- The host pairing `c1Doc` with `c1Service`. -/
def c1Host : ServiceHost := ⟨fun d => (d, c1Service), fun _ => none⟩

/-- Counterexample for C1: with the host document's file path absent
from the service's root-file set, `getCodeActions` (codeActions) still
queries the service and returns a non-empty action list rather than its
neutral empty result: it performs no root-file membership check. -/
theorem getCodeActions_skips_membership_check :
    languageServiceIncludesFile c1Service c1Doc.uri = false
    ∧ (getCodeActions sampleTsModule sampleConfig c1Host c1Doc ⟨⟨0, 0⟩, ⟨0, 0⟩⟩
        ⟨none, []⟩ none).1
      = [⟨"Extract function", codeActionKindRefactor, none,
          createRequestCodeActionCommand "Extract function"
            ⟨CodeActionReqKind.refactorAction, "file:///a.vue", ⟨0, 0⟩,
              getFormatCodeSettings sampleConfig,
              ReqArguments.refactor "Extract function" "Extract function"
                "Extract function"⟩⟩] :=
  ⟨rfl, rfl⟩

/-- Witness for the amended C1: at a concrete non-root document, all
nine checking operations return their neutral empty results. -/
theorem unincluded_file_neutral_results_witness :
    languageServiceIncludesFile c1Service c1Doc.uri = false
    ∧ (doValidation c1Host c1Doc = []
      ∧ doComplete sampleConfig c1Host c1Doc ⟨0, 0⟩ = ⟨false, []⟩
      ∧ doResolve sampleConfig c1Host c1Doc
          ⟨"u", ⟨0, 0⟩, none, "x", none, none, none, none, none, none, none, none, none,
            none⟩
        = ⟨"u", ⟨0, 0⟩, none, "x", none, none, none, none, none, none, none, none, none,
            none⟩
      ∧ doHover c1Host c1Doc ⟨0, 0⟩ = ⟨[], none⟩
      ∧ doSignatureHelp c1Host c1Doc ⟨0, 0⟩ = NULL_SIGNATURE
      ∧ findDocumentHighlight c1Host c1Doc ⟨0, 0⟩ = []
      ∧ findDocumentSymbols c1Host c1Doc = []
      ∧ findDefinition c1Host c1Doc ⟨0, 0⟩ = []
      ∧ findReferences c1Host c1Doc ⟨0, 0⟩ = []) :=
  ⟨rfl, unincluded_file_neutral_results sampleConfig c1Host c1Doc ⟨0, 0⟩
    ⟨"u", ⟨0, 0⟩, none, "x", none, none, none, none, none, none, none, none, none, none⟩
    rfl⟩

/-! ## C9 -/

/-- A record of one emitted outline symbol: the originating navigation
item's text, kind tag, first span, and the ambient container label at
emission time. -/
structure EmitRec where
  text : String
  kind : String
  span0 : TextSpan
  container : Option String

/-- The dedup key an emit record registers in the `existing` map. -/
def emitKey (d : EmitRec) : String :=
  d.text ++ d.kind ++ toString d.span0.start

/-- The symbol information an emit record denotes. -/
def emitSym (scriptDoc : TextDoc) (uri : String) (d : EmitRec) : SymbolInformation :=
  ⟨d.text, toSymbolKind d.kind, ⟨uri, convertRange scriptDoc d.span0⟩, d.container⟩

/-- The collection invariant relating an accumulator to the state after
a traversal step: the `existing` key set only grows, and the newly
emitted symbols are described by emit records whose keys are pairwise
distinct, absent from the incoming key set, registered in the outgoing
one, and never of the `script` kind. -/
def CollectOK (scriptDoc : TextDoc) (uri : String)
    (acc acc2 : List SymbolInformation × List String) : Prop :=
  (∀ k ∈ acc.2, k ∈ acc2.2)
  ∧ ∃ ds : List EmitRec,
      acc2.1 = acc.1 ++ ds.map (emitSym scriptDoc uri)
      ∧ (ds.map emitKey).Nodup
      ∧ ∀ d ∈ ds, emitKey d ∉ acc.2 ∧ emitKey d ∈ acc2.2 ∧ d.kind ≠ "script"

mutual
/-- The collection invariant holds across `collectItem`. -/
theorem collectItem_ok (scriptDoc : TextDoc) (uri : String) (item : NavItem)
    (containerLabel : Option String) (acc : List SymbolInformation × List String) :
    CollectOK scriptDoc uri acc (collectItem scriptDoc uri item containerLabel acc) := by
  cases item with
  | mk text kind spans childItems =>
    simp only [collectItem]
    by_cases hcond : kind ≠ "script" ∧ ¬ navItemSig text kind spans ∈ acc.2
    · rw [if_pos hcond]
      have ih := collectList_ok scriptDoc uri childItems (some text)
        (acc.1 ++ [⟨text, toSymbolKind kind,
          ⟨uri, convertRange scriptDoc (spans.headD ⟨0, 0⟩)⟩, containerLabel⟩],
          navItemSig text kind spans :: acc.2)
      obtain ⟨mono, ds, he, hnd, hp⟩ := ih
      refine ⟨?_, ⟨⟨text, kind, spans.headD ⟨0, 0⟩, containerLabel⟩ :: ds, ?_, ?_, ?_⟩⟩
      · intro k hk
        exact mono k (List.mem_cons_of_mem _ hk)
      · rw [he]
        simp [List.append_assoc, emitSym]
      · rw [List.map_cons, List.nodup_cons]
        refine ⟨?_, hnd⟩
        intro hmem
        rcases List.mem_map.mp hmem with ⟨d, hd, hkey⟩
        have := (hp d hd).1
        rw [hkey] at this
        exact this (List.mem_cons_self _ _)
      · intro d hd
        rcases List.mem_cons.mp hd with heq | hmem
        · subst heq
          refine ⟨hcond.2, mono _ (List.mem_cons_self _ _), hcond.1⟩
        · have h3 := hp d hmem
          refine ⟨?_, h3.2.1, h3.2.2⟩
          intro hin
          exact h3.1 (List.mem_cons_of_mem _ hin)
    · rw [if_neg hcond]
      exact collectList_ok scriptDoc uri childItems containerLabel acc
/-- The collection invariant holds across `collectList`. -/
theorem collectList_ok (scriptDoc : TextDoc) (uri : String) (items : List NavItem)
    (containerLabel : Option String) (acc : List SymbolInformation × List String) :
    CollectOK scriptDoc uri acc (collectList scriptDoc uri items containerLabel acc) := by
  cases items with
  | nil =>
    simp only [collectList]
    exact ⟨fun k hk => hk, [], by simp, List.nodup_nil, by simp⟩
  | cons item rest =>
    simp only [collectList]
    obtain ⟨m1, ds1, e1, n1, p1⟩ := collectItem_ok scriptDoc uri item containerLabel acc
    obtain ⟨m2, ds2, e2, n2, p2⟩ := collectList_ok scriptDoc uri rest containerLabel
      (collectItem scriptDoc uri item containerLabel acc)
    refine ⟨fun k hk => m2 k (m1 k hk), ds1 ++ ds2, ?_, ?_, ?_⟩
    · rw [e2, e1]
      simp [List.append_assoc]
    · rw [List.map_append]
      refine List.Nodup.append n1 n2 ?_
      intro k hk1 hk2
      rcases List.mem_map.mp hk1 with ⟨d1, hd1, hkey1⟩
      rcases List.mem_map.mp hk2 with ⟨d2, hd2, hkey2⟩
      have hin : k ∈ (collectItem scriptDoc uri item containerLabel acc).2 := by
        rw [← hkey1]
        exact (p1 d1 hd1).2.1
      have hout := (p2 d2 hd2).1
      rw [← hkey2] at hin
      exact hout hin
    · intro d hd
      rcases List.mem_append.mp hd with hmem | hmem
      · have h3 := p1 d hmem
        exact ⟨h3.1, m2 _ h3.2.1, h3.2.2⟩
      · have h3 := p2 d hmem
        refine ⟨?_, h3.2.1, h3.2.2⟩
        intro hin
        exact h3.1 (m1 _ hin)
end

/-- C9: for every outline returned by the external service,
`findDocumentSymbols` never emits two symbols with identical
(name, kind, start-offset) — formalized on the emitted symbols, whose
start position determines the start offset whenever the script
document's `positionAt` is injective (true of every real text
document) — and never emits a symbol of the whole-file `script` kind;
moreover the container threading is exactly "nearest non-skipped
ancestor": an emitted item's symbol carries the ambient container label
and its children are walked with the label set to the item's text,
while a skipped item (whole-file kind or duplicate key) leaves the
label unchanged for its children. -/
theorem documentSymbols_dedup_skip_container :
    (∀ (host : ServiceHost) (doc : TextDoc),
      Function.Injective (host.updateCurrentVueTextDocument doc).1.positionAt →
      (findDocumentSymbols host doc).Pairwise (fun a b =>
        ¬ (a.name = b.name ∧ a.kind = b.kind
            ∧ a.location.range.start = b.location.range.start))
      ∧ ∀ s ∈ findDocumentSymbols host doc, s.kind ≠ "script")
    ∧ (∀ (scriptDoc : TextDoc) (uri text kind : String) (spans : List TextSpan)
        (childItems : List NavItem) (containerLabel : Option String)
        (acc : List SymbolInformation × List String),
      (kind ≠ "script" ∧ ¬ navItemSig text kind spans ∈ acc.2 →
        collectItem scriptDoc uri (NavItem.mk text kind spans childItems) containerLabel acc
          = collectList scriptDoc uri childItems (some text)
            (acc.1 ++ [⟨text, toSymbolKind kind,
              ⟨uri, convertRange scriptDoc (spans.headD ⟨0, 0⟩)⟩, containerLabel⟩],
              navItemSig text kind spans :: acc.2))
      ∧ (¬ (kind ≠ "script" ∧ ¬ navItemSig text kind spans ∈ acc.2) →
        collectItem scriptDoc uri (NavItem.mk text kind spans childItems) containerLabel acc
          = collectList scriptDoc uri childItems containerLabel acc)) := by
  constructor
  · intro host doc hinj
    unfold findDocumentSymbols
    by_cases hinc :
        languageServiceIncludesFile (host.updateCurrentVueTextDocument doc).2 doc.uri = true
    · simp only [hinc, if_true]
      constructor
      · split
        · exact List.Pairwise.nil
        · rename_i items hnav
          obtain ⟨mono, ds, he, hnd, hp⟩ :=
            collectList_ok (host.updateCurrentVueTextDocument doc).1 doc.uri items none ([], [])
          rw [he]
          simp only [List.nil_append]
          have hnd2 : (ds.map emitKey).Pairwise (fun a b => a ≠ b) := hnd
          have hpw := List.pairwise_map.mp hnd2
          rw [List.pairwise_map]
          refine hpw.imp ?_
          intro a b hne hcontra
          obtain ⟨h1, h2, h3⟩ := hcontra
          apply hne
          simp only [emitSym, toSymbolKind] at h1 h2 h3
          simp only [convertRange] at h3
          have h4 := hinj h3
          unfold emitKey
          rw [h1, h2, h4]
      · split
        · simp
        · rename_i items hnav
          obtain ⟨mono, ds, he, hnd, hp⟩ :=
            collectList_ok (host.updateCurrentVueTextDocument doc).1 doc.uri items none ([], [])
          rw [he]
          simp only [List.nil_append]
          intro s hs
          rcases List.mem_map.mp hs with ⟨d, hd, heq⟩
          have hscript := (hp d hd).2.2
          rw [← heq]
          simpa [emitSym, toSymbolKind] using hscript
    · simp only [Bool.not_eq_true] at hinc
      simp only [hinc, Bool.false_eq_true, if_false]
      exact ⟨List.Pairwise.nil, by simp⟩
  · intro scriptDoc uri text kind spans childItems containerLabel acc
    constructor
    · intro hcond
      simp only [collectItem]
      rw [if_pos hcond]
    · intro hcond
      simp only [collectItem]
      rw [if_neg hcond]

/-- A document with an injective `positionAt` for the C9 witness. -/
def c9Doc : TextDoc := ⟨"file:///a.vue", "vue", "", fun _ => 0, fun n => ⟨n, 0⟩⟩

/-- An outline with two items carrying the identical
(name, kind, start-offset) key. -/
def c9Items : List NavItem :=
  [NavItem.mk "a" "var" [⟨0, 1⟩] [], NavItem.mk "a" "var" [⟨0, 1⟩] []]

/-- A service serving `c9Items` for the root file. -/
def c9Service : LanguageService :=
  { emptyService with
    getProgram := some ⟨["file:///a.vue"], fun _ => none, emptyChecker⟩
    getNavigationBarItems := fun _ => some c9Items }

/-- The host pairing `c9Doc` with `c9Service`. -/
def c9Host : ServiceHost := ⟨fun d => (d, c9Service), fun _ => none⟩

/-- Witness for C9: on the concrete duplicate outline only one symbol is
emitted and the pairwise-distinctness and no-script-kind conclusions
hold. -/
theorem documentSymbols_dedup_skip_container_witness :
    (findDocumentSymbols c9Host c9Doc).Pairwise (fun a b =>
      ¬ (a.name = b.name ∧ a.kind = b.kind
          ∧ a.location.range.start = b.location.range.start))
    ∧ (∀ s ∈ findDocumentSymbols c9Host c9Doc, s.kind ≠ "script")
    ∧ (findDocumentSymbols c9Host c9Doc).length = 1 :=
  ⟨(documentSymbols_dedup_skip_container.1 c9Host c9Doc
      (fun _ _ h => congrArg Pos.line h)).1,
    (documentSymbols_dedup_skip_container.1 c9Host c9Doc
      (fun _ _ h => congrArg Pos.line h)).2,
    rfl⟩
